import Mathlib

/-!
# Verification of the cf-worker-router relay engine

A shallow embedding, in Lean 4, of the Cloudflare-Worker HTTPS relay found in
this repository (Hono router `src/index.ts`, helpers `src/utils.ts`, cookie
Durable Object `src/session_do.ts`), together with theorems settling the
specification claims about it.

Modelling conventions:
* JS strings are Lean `String`s; JS "binary strings" and `Uint8Array`s are
  `List Nat` with every element `< 256`.
* The platform `Headers` class is modelled by `HeadersM`, a list of
  name/value pairs.  Per the WHATWG Fetch standard (which the Workers runtime
  implements) header names compare byte-case-insensitively and iteration
  (`forEach`) yields lowercased names; the model therefore stores lowercased
  names on insertion and compares names case-insensitively on lookup.
* The Durable-Object cookie store (one `SessionDO` per session id, addressed
  by `idFromName`, which is injective) is modelled as an association list
  from session id to session state, with each jar an association list
  origin -> (cookie name -> value).  The `lastUsed` timestamp of the DO
  state is real time and is not modelled; nothing reads it.
* The upstream `fetch` is an oracle `OutboundCall -> Except String RespM`:
  `Except.error` is a network failure (the promise rejecting).
* An uncaught JS exception inside a handler is `Except.error` in the
  handler's result; Hono's default error handler turns it into a plain
  500 "Internal Server Error" response, modelled by the `*Endpoint` wrappers.
* Handler `durationMs` telemetry is wall-clock time and is modelled as 0.

All definitions are executable; custom structural-recursion replacements are
used for string splitting/trimming so concrete runs reduce in the kernel.
-/

namespace Router

/-! ## Character and string primitives (JS `toLowerCase`/`toUpperCase`/`trim`/`split`) -/

/-- Build a `Char` from a code point below the surrogate range. -/
def mkChar (n : Nat) (h : n < 55296) : Char :=
  ⟨⟨⟨⟨n, by omega⟩⟩⟩, Or.inl h⟩

@[simp] theorem mkChar_toNat (n : Nat) (h : n < 55296) : (mkChar n h).toNat = n := rfl

/-- ASCII lowercasing of one character, as JS `String.prototype.toLowerCase`
acts on the ASCII range (header names and methods are ASCII). -/
def lowerChar (c : Char) : Char :=
  if h : 65 ≤ c.toNat ∧ c.toNat ≤ 90 then mkChar (c.toNat + 32) (by omega)
  else c

/-- One character of JS `String.prototype.toUpperCase`, which applies the
Unicode default case conversion (a character can uppercase to several).
The model implements the ASCII range together with every Unicode mapping
whose output is pure ASCII — long s `ſ` -> `S`, dotless i `ı` -> `I`,
sharp s `ß` -> `SS`, and the Latin ligatures `ﬀ ﬁ ﬂ ﬃ ﬄ ﬅ ﬆ` -> `FF FI FL
FFI FFL ST ST` — which are exactly the inputs that can produce the ASCII
strings the worker compares methods against.  Every other character's real
conversion contains a non-ASCII character (so it can never form `GET`,
`HEAD` or `POST`) and is left unchanged here; the difference is visible
only inside the free-text 405 error message. -/
def upperCharFull (c : Char) : List Char :=
  if h : 97 ≤ c.toNat ∧ c.toNat ≤ 122 then [mkChar (c.toNat - 32) (by omega)]
  else if c = 'ſ' then ['S']
  else if c = 'ı' then ['I']
  else if c = 'ß' then ['S', 'S']
  else if c = 'ﬀ' then ['F', 'F']
  else if c = 'ﬁ' then ['F', 'I']
  else if c = 'ﬂ' then ['F', 'L']
  else if c = 'ﬃ' then ['F', 'F', 'I']
  else if c = 'ﬄ' then ['F', 'F', 'L']
  else if c = 'ﬅ' then ['S', 'T']
  else if c = 'ﬆ' then ['S', 'T']
  else [c]

def lowerStr (s : String) : String := ⟨s.data.map lowerChar⟩

/-- JS `String.prototype.toUpperCase` (see `upperCharFull` for the modelled
fragment of the Unicode default case conversion). -/
def upperStr (s : String) : String := ⟨(s.data.map upperCharFull).flatten⟩

theorem lowerChar_toNat_of_upper (c : Char) (h : 65 ≤ c.toNat ∧ c.toNat ≤ 90) :
    (lowerChar c).toNat = c.toNat + 32 := by
  rw [lowerChar, dif_pos h, mkChar_toNat]

theorem lowerChar_idem (c : Char) : lowerChar (lowerChar c) = lowerChar c := by
  by_cases h : 65 ≤ c.toNat ∧ c.toNat ≤ 90
  · have h1 : (lowerChar c).toNat = c.toNat + 32 := lowerChar_toNat_of_upper c h
    have h2 : ¬ (65 ≤ (lowerChar c).toNat ∧ (lowerChar c).toNat ≤ 90) := by omega
    rw [lowerChar, dif_neg h2]
  · have e : lowerChar c = c := by rw [lowerChar, dif_neg h]
    rw [e]
    exact e

theorem lowerStr_idem (s : String) : lowerStr (lowerStr s) = lowerStr s := by
  simp only [lowerStr, List.map_map]
  exact congrArg _ (List.map_congr_left fun c _ => lowerChar_idem c)

/-- JS `String.prototype.split` with a single-character separator
(worker code only splits on `';'` and `'='`).  `"".split(sep) = [""]`. -/
def splitChar (sep : Char) : List Char → List Char → List (List Char)
  | [], acc => [acc.reverse]
  | c :: rest, acc =>
    if c = sep then acc.reverse :: splitChar sep rest [] else splitChar sep rest (c :: acc)

/-- Split a list of chars at the first occurrence of `'='`
(JS `indexOf('=')` + the two `slice`s in `parseCookiePair`);
`none` when there is no `'='`. -/
def breakAtEq : List Char → Option (List Char × List Char)
  | [] => none
  | c :: rest =>
    if c = '=' then some ([], rest)
    else (breakAtEq rest).map (fun p => (c :: p.1, p.2))

/-- The whitespace class stripped by JS `String.prototype.trim`
(ASCII portion; the worker only trims cookie names/values). -/
def isJsWs (c : Char) : Bool :=
  c = ' ' || c = '\t' || c = '\n' || c = '\r' || c = '\x0b' || c = '\x0c'

/-- ASCII whitespace in the sense of the forgiving-base64 decode (TAB, LF,
FF, CR, SPACE) — unlike JS `trim`, this does not include vertical tab. -/
def isB64Ws (c : Char) : Bool :=
  c = ' ' || c = '\t' || c = '\n' || c = '\r' || c = '\x0c'

/-- JS `String.prototype.trim` (ASCII whitespace). -/
def trimStr (s : String) : String :=
  ⟨((s.data.dropWhile isJsWs).reverse.dropWhile isJsWs).reverse⟩

/-- `list.join(sep)` for strings. -/
def joinSep (sep : String) : List String → String
  | [] => ""
  | [x] => x
  | x :: y :: rest => x ++ sep ++ joinSep sep (y :: rest)

/-- JS truthiness default `value || dflt` for strings: the empty string is
falsy, so it also falls back to the default. -/
def strOr (o : Option String) (dflt : String) : String :=
  match o with
  | some s => if s = "" then dflt else s
  | none => dflt

/-- JS truthiness of an optional string (`if (s)`) : false for absent and
for the empty string. -/
def strTruthy (o : Option String) : Bool :=
  match o with
  | some s => s ≠ ""
  | none => false

/-! ## Base64 (`atob`, `base64urlDecode` from `src/utils.ts`, and the encoder)

`atob` performs the WHATWG forgiving-base64 decode: strip ASCII whitespace
(TAB, LF, FF, CR, SPACE),
strip up to two trailing `'='` when the length is a multiple of 4, reject a
remaining length `≡ 1 (mod 4)` or any character outside the standard
alphabet, then decode 6-bit groups (leftover bits of a trailing 2- or
3-character group are discarded).  The JS function returns a binary string;
the model returns the byte list directly. -/

/-- The standard base64 alphabet, as used by `atob`. -/
def stdB64Alphabet : List Char :=
  "ABCDEFGHIJKLMNOPQRSTUVWXYZabcdefghijklmnopqrstuvwxyz0123456789+/".data

/-- The url-safe base64 alphabet (`-` and `_` in place of `+` and `/`). -/
def urlB64Alphabet : List Char :=
  "ABCDEFGHIJKLMNOPQRSTUVWXYZabcdefghijklmnopqrstuvwxyz0123456789-_".data

def stdB64Char (n : Nat) : Char := stdB64Alphabet.getD n '?'

def urlB64Char (n : Nat) : Char := urlB64Alphabet.getD n '?'

def b64IndexOf (c : Char) : List Char → Nat → Option Nat
  | [], _ => none
  | x :: rest, i => if x = c then some i else b64IndexOf c rest (i + 1)

/-- Value of a character in the standard base64 alphabet (`none` if absent). -/
def stdB64Val (c : Char) : Option Nat := b64IndexOf c stdB64Alphabet 0

/-- Bytes to 6-bit groups: 3 bytes give 4 sextets; a 1- or 2-byte tail gives
2 or 3 sextets (low bits zero-padded). -/
def bytesToSextets : List Nat → List Nat
  | a :: b :: c :: rest =>
    a / 4 :: ((a % 4) * 16 + b / 16) :: ((b % 16) * 4 + c / 64) :: c % 64 :: bytesToSextets rest
  | [a] => [a / 4, (a % 4) * 16]
  | [a, b] => [a / 4, (a % 4) * 16 + b / 16, (b % 16) * 4]
  | [] => []

/-- 6-bit groups back to bytes: 4 sextets give 3 bytes; a 2- or 3-sextet tail
gives 1 or 2 bytes, discarding leftover bits (forgiving-base64). -/
def decodeSextets : List Nat → List Nat
  | x :: y :: z :: w :: rest =>
    (x * 4 + y / 16) :: ((y % 16) * 16 + z / 4) :: ((z % 4) * 64 + w) :: decodeSextets rest
  | [x, y] => [x * 4 + y / 16]
  | [x, y, z] => [x * 4 + y / 16, (y % 16) * 16 + z / 4]
  | _ => []

/-- Map base64 characters to their values, failing on the first character
outside the standard alphabet. -/
def charsToVals : List Char → Option (List Nat)
  | [] => some []
  | c :: rest =>
    match stdB64Val c, charsToVals rest with
    | some v, some vs => some (v :: vs)
    | _, _ => none

/-- Drop one or two leading `'='` characters (worker on the reversed list). -/
def dropPadRev : List Char → List Char
  | [] => []
  | [c] => if c = '=' then [] else [c]
  | c :: c2 :: rest =>
    if c = '=' then (if c2 = '=' then rest else c2 :: rest) else c :: c2 :: rest

/-- Strip up to two trailing `'='` characters. -/
def stripPad (l : List Char) : List Char :=
  (dropPadRev l.reverse).reverse

/-- Padding-strip stage of forgiving-base64: only strip trailing `'='` when
the length is a multiple of 4. -/
def atobStage (l : List Char) : List Char :=
  if l.length % 4 = 0 then stripPad l else l

/-- The platform `atob` (forgiving-base64 decode); `none` models the thrown
`InvalidCharacterError`. -/
def atobModel (s : String) : Option (List Nat) :=
  if (atobStage (s.data.filter (fun c => !(isB64Ws c)))).length % 4 = 1 then none
  else (charsToVals (atobStage (s.data.filter (fun c => !(isB64Ws c))))).map decodeSextets

/-- The base64url-to-base64 character translation of `base64urlDecode`:
the two global replaces turning every dash into a plus and every
underscore into a slash. -/
def b64urlTranslate (input : String) : List Char :=
  input.data.map (fun c => if c = '-' then '+' else if c = '_' then '/' else c)

/-- The `'='` padding computed by `base64urlDecode`. -/
def b64pad (n : Nat) : List Char :=
  if n % 4 = 0 then [] else List.replicate (4 - n % 4) '='

/-- `base64urlDecode` from `src/utils.ts`: translate the url-safe alphabet to
the standard one, pad with `'='` to a multiple of 4, and `atob`.  The JS
function returns the decoded binary string; the model returns its bytes. -/
def base64urlDecode (input : String) : Option (List Nat) :=
  atobModel ⟨b64urlTranslate input ++ b64pad (b64urlTranslate input).length⟩

/-- Modelled from the spec: `base64urlDecodeToUint8Array` from the current
`src/utils.ts` is not in the source snapshot (only its callers in
`src/index.ts` are).  Per the spec (§4.1 `decodeUrlSafeBase64`) and the
internals doc it is the binary-safe variant of `base64urlDecode`, throwing a
decode error on malformed input; in this byte-level model the two coincide. -/
def base64urlDecodeToUint8Array (input : String) : Option (List Nat) :=
  base64urlDecode input

/-- Modelled from the spec: `encodeUrlSafeBase64` (§4.1) is not part of the
worker source (the callers encode on the client side); per the spec it emits
standard base64url with no padding characters. -/
def encodeUrlSafeBase64 (bytes : List Nat) : String :=
  ⟨(bytesToSextets bytes).map urlB64Char⟩

/-! ### Round-trip lemmas for the codec -/

theorem decodeSextets_bytesToSextets :
    ∀ l : List Nat, (∀ x ∈ l, x < 256) → decodeSextets (bytesToSextets l) = l
  | [], _ => rfl
  | [a], _ => by
    simp only [bytesToSextets, decodeSextets, List.cons.injEq, and_true]
    omega
  | [a, b], h => by
    have hb : b < 256 := h b (by simp)
    simp only [bytesToSextets, decodeSextets, List.cons.injEq, and_true]
    omega
  | a :: b :: c :: rest, h => by
    have hb : b < 256 := h b (by simp)
    have hc : c < 256 := h c (by simp)
    have ih := decodeSextets_bytesToSextets rest (fun x hx => h x (by simp [hx]))
    simp only [bytesToSextets, decodeSextets, List.cons.injEq, ih, and_true]
    omega

theorem bytesToSextets_lt :
    ∀ l : List Nat, (∀ x ∈ l, x < 256) → ∀ v ∈ bytesToSextets l, v < 64
  | [], _ => by simp [bytesToSextets]
  | [a], h => by
    have ha : a < 256 := h a (by simp)
    simp only [bytesToSextets, List.mem_cons, List.not_mem_nil, or_false]
    rintro v (rfl | rfl) <;> omega
  | [a, b], h => by
    have ha : a < 256 := h a (by simp)
    have hb : b < 256 := h b (by simp)
    simp only [bytesToSextets, List.mem_cons, List.not_mem_nil, or_false]
    rintro v (rfl | rfl | rfl) <;> omega
  | a :: b :: c :: rest, h => by
    have ha : a < 256 := h a (by simp)
    have hb : b < 256 := h b (by simp)
    have hc : c < 256 := h c (by simp)
    have ih := bytesToSextets_lt rest (fun x hx => h x (by simp [hx]))
    simp only [bytesToSextets, List.mem_cons]
    rintro v (rfl | rfl | rfl | rfl | hv)
    · omega
    · omega
    · omega
    · omega
    · exact ih v hv

theorem bytesToSextets_length_mod :
    ∀ l : List Nat, (bytesToSextets l).length % 4 ≠ 1
  | [] => by simp [bytesToSextets]
  | [_] => by simp [bytesToSextets]
  | [_, _] => by simp [bytesToSextets]
  | a :: b :: c :: rest => by
    have ih := bytesToSextets_length_mod rest
    simp only [bytesToSextets, List.length_cons]
    omega

theorem stdB64Val_stdB64Char : ∀ n, n < 64 → stdB64Val (stdB64Char n) = some n := by decide

theorem translate_urlB64Char : ∀ n, n < 64 →
    (if urlB64Char n = '-' then '+' else if urlB64Char n = '_' then '/' else urlB64Char n) =
      stdB64Char n := by decide

theorem stdB64Char_not_ws : ∀ n, n < 64 → isB64Ws (stdB64Char n) = false := by decide

theorem stdB64Char_ne_eq : ∀ n, n < 64 → stdB64Char n ≠ '=' := by decide

theorem charsToVals_map_stdB64Char :
    ∀ vs : List Nat, (∀ v ∈ vs, v < 64) → charsToVals (vs.map stdB64Char) = some vs
  | [], _ => rfl
  | v :: rest, h => by
    have hv := stdB64Val_stdB64Char v (h v (by simp))
    have ih := charsToVals_map_stdB64Char rest (fun x hx => h x (by simp [hx]))
    simp [charsToVals, hv, ih]

theorem dropPadRev_no_eq (m : List Char) (h : ∀ c ∈ m, c ≠ '=') : dropPadRev m = m := by
  match m with
  | [] => rfl
  | [c] =>
    have : c ≠ '=' := h c (by simp)
    simp [dropPadRev, this]
  | c :: c2 :: rest =>
    have : c ≠ '=' := h c (by simp)
    simp [dropPadRev, this]

theorem dropPadRev_one (m : List Char) (h : ∀ c ∈ m, c ≠ '=') :
    dropPadRev ('=' :: m) = m := by
  match m with
  | [] => rfl
  | c2 :: rest =>
    have : c2 ≠ '=' := h c2 (by simp)
    simp [dropPadRev, this]

theorem dropPadRev_two (m : List Char) : dropPadRev ('=' :: '=' :: m) = m := by
  simp [dropPadRev]

theorem stripPad_no_eq (l : List Char) (h : ∀ c ∈ l, c ≠ '=') : stripPad l = l := by
  rw [stripPad, dropPadRev_no_eq _ (fun c hc => h c (List.mem_reverse.mp hc)), List.reverse_reverse]

theorem stripPad_one (l : List Char) (h : ∀ c ∈ l, c ≠ '=') :
    stripPad (l ++ ['=']) = l := by
  rw [stripPad, show (l ++ ['=']).reverse = '=' :: l.reverse by simp,
    dropPadRev_one _ (fun c hc => h c (List.mem_reverse.mp hc)), List.reverse_reverse]

theorem stripPad_two (l : List Char) :
    stripPad (l ++ ['=', '=']) = l := by
  rw [stripPad, show (l ++ ['=', '=']).reverse = '=' :: '=' :: l.reverse by simp,
    dropPadRev_two, List.reverse_reverse]

theorem urlB64Char_ne_eq : ∀ n, n < 64 → urlB64Char n ≠ '=' := by decide

/-- `atob` applied to the standard-alphabet rendering of a sextet list plus
the canonical padding recovers `decodeSextets` of the sextets. -/
theorem atobModel_sextets (vs : List Nat) (h : ∀ v ∈ vs, v < 64)
    (hm : vs.length % 4 ≠ 1) :
    atobModel ⟨vs.map stdB64Char ++ b64pad vs.length⟩ = some (decodeSextets vs) := by
  have hne : ∀ c ∈ vs.map stdB64Char, c ≠ '=' := by
    intro c hc
    obtain ⟨v, hv, rfl⟩ := List.mem_map.mp hc
    exact stdB64Char_ne_eq v (h v hv)
  have hfull : ∀ (pad : List Char), (∀ c ∈ pad, c = '=') →
      (vs.map stdB64Char ++ pad).filter (fun c => !(isB64Ws c)) = vs.map stdB64Char ++ pad := by
    intro pad hpad
    apply List.filter_eq_self.mpr
    intro c hc
    rcases List.mem_append.mp hc with hc | hc
    · obtain ⟨v, hv, rfl⟩ := List.mem_map.mp hc
      simp [stdB64Char_not_ws v (h v hv)]
    · rw [hpad c hc]
      decide
  have hmlt : vs.length % 4 < 4 := Nat.mod_lt _ (by norm_num)
  have h04 : vs.length % 4 = 0 ∨ vs.length % 4 = 2 ∨ vs.length % 4 = 3 := by omega
  have hvals := charsToVals_map_stdB64Char vs h
  have hmaplen : (vs.map stdB64Char).length = vs.length := List.length_map _ _
  rcases h04 with h4 | h4 | h4
  · have hpad : b64pad vs.length = [] := by rw [b64pad, if_pos h4]
    have hstage : atobStage (vs.map stdB64Char) = vs.map stdB64Char := by
      rw [atobStage, if_pos (by rw [hmaplen]; exact h4), stripPad_no_eq _ hne]
    rw [hpad, atobModel,
      show (String.mk (vs.map stdB64Char ++ [])).data = vs.map stdB64Char ++ [] from rfl,
      hfull [] (by simp), List.append_nil, hstage, if_neg (by rw [hmaplen]; omega), hvals]
    rfl
  · have hpad : b64pad vs.length = ['=', '='] := by
      rw [b64pad, if_neg (by omega), h4]; rfl
    have hstage : atobStage (vs.map stdB64Char ++ ['=', '=']) = vs.map stdB64Char := by
      rw [atobStage,
        if_pos (by
          rw [List.length_append, hmaplen, show (['=', '='] : List Char).length = 2 from rfl]
          omega),
        stripPad_two _]
    rw [hpad, atobModel,
      show (String.mk (vs.map stdB64Char ++ ['=', '='])).data =
        vs.map stdB64Char ++ ['=', '='] from rfl,
      hfull ['=', '='] (by simp), hstage, if_neg (by rw [hmaplen]; omega), hvals]
    rfl
  · have hpad : b64pad vs.length = ['='] := by
      rw [b64pad, if_neg (by omega), h4]; rfl
    have hstage : atobStage (vs.map stdB64Char ++ ['=']) = vs.map stdB64Char := by
      rw [atobStage,
        if_pos (by
          rw [List.length_append, hmaplen, show (['='] : List Char).length = 1 from rfl]
          omega),
        stripPad_one _ hne]
    rw [hpad, atobModel,
      show (String.mk (vs.map stdB64Char ++ ['='])).data =
        vs.map stdB64Char ++ ['='] from rfl,
      hfull ['='] (by simp), hstage, if_neg (by rw [hmaplen]; omega), hvals]
    rfl

/-- Claim C8 core: decoding the url-safe base64 encoding of any byte
sequence returns the bytes. -/
theorem base64urlDecode_encode (b : List Nat) (hb : ∀ x ∈ b, x < 256) :
    base64urlDecode (encodeUrlSafeBase64 b) = some b := by
  have hlt := bytesToSextets_lt b hb
  have htr : b64urlTranslate (encodeUrlSafeBase64 b) = (bytesToSextets b).map stdB64Char := by
    rw [b64urlTranslate,
      show (encodeUrlSafeBase64 b).data = (bytesToSextets b).map urlB64Char from rfl,
      List.map_map]
    exact List.map_congr_left (fun v hv => translate_urlB64Char v (hlt v hv))
  rw [base64urlDecode, htr, List.length_map,
    atobModel_sextets (bytesToSextets b) hlt (bytesToSextets_length_mod b),
    decodeSextets_bytesToSextets b hb]

/-- The encoder emits no padding characters. -/
theorem encodeUrlSafeBase64_no_pad (b : List Nat) (hb : ∀ x ∈ b, x < 256) :
    ∀ c ∈ (encodeUrlSafeBase64 b).data, c ≠ '=' := by
  intro c hc
  obtain ⟨v, hv, rfl⟩ := List.mem_map.mp hc
  exact urlB64Char_ne_eq v (bytesToSextets_lt b hb v hv)

/-! ## URL model (`new URL`, `isHttpsAbsolute`, `getOriginFor` from `src/utils.ts`)

The worker only consults `URL.protocol` and `URL.origin` of absolute URLs of
the form `scheme://authority/...`.  The model parses exactly that fragment of
the WHATWG URL grammar: a nonempty alphabetic-first scheme, the literal
`://`, then a nonempty authority running to the first `/`, `?` or `#`; scheme
and host are lowercased as the platform parser does.  Userinfo stripping and
default-port elision inside the authority are not modelled (no claim
exercises them). -/

structure UrlM where
  protocol : String
  origin : String
  deriving DecidableEq, Repr

def isSchemeStart (c : Char) : Bool :=
  (65 ≤ c.toNat && c.toNat ≤ 90) || (97 ≤ c.toNat && c.toNat ≤ 122)

def isSchemeChar (c : Char) : Bool :=
  isSchemeStart c || (48 ≤ c.toNat && c.toNat ≤ 57) || c = '+' || c = '-' || c = '.'

/-- Split the char list at the first `':'`; `none` when there is none. -/
def breakAtColon : List Char → Option (List Char × List Char)
  | [] => none
  | c :: rest =>
    if c = ':' then some ([], rest)
    else (breakAtColon rest).map (fun p => (c :: p.1, p.2))

/-- `new URL(s)` restricted to the fragment the worker uses; `none` models
the thrown `TypeError` on an invalid URL. -/
def parseUrlM (s : String) : Option UrlM :=
  match breakAtColon s.data with
  | none => none
  | some (scheme, rest) =>
    if scheme = [] then none
    else if !(isSchemeStart (scheme.headI) && scheme.all isSchemeChar) then none
    else
      match rest with
      | '/' :: '/' :: tail =>
        let auth := tail.takeWhile (fun c => c ≠ '/' && c ≠ '?' && c ≠ '#')
        if auth = [] then none
        else
          some { protocol := lowerStr ⟨scheme⟩ ++ ":",
                 origin := lowerStr ⟨scheme⟩ ++ "://" ++ lowerStr ⟨auth⟩ }
      | _ => none

/-- `isHttpsAbsolute` from `src/utils.ts`: `new URL(s)` succeeds and
`u.protocol === 'https:'`. -/
def isHttpsAbsolute (s : String) : Bool :=
  match parseUrlM s with
  | some u => u.protocol = "https:"
  | none => false

/-- `getOriginFor` from `src/utils.ts`: `new URL(s).origin`, `null` on parse
failure. -/
def getOriginFor (urlStr : String) : Option String :=
  (parseUrlM urlStr).map (fun u => u.origin)

/-! ## Headers model and the header filters from `src/utils.ts` -/

/-- The observable state of a platform `Headers` object: an ordered list of
name/value entries.  All construction paths in the worker go through `hSet`
and `hAppend`, which store the lowercased name, matching what `forEach`
iteration exposes per the Fetch standard. -/
abbrev HeadersM := List (String × String)

/-- `headers.get(name)`: case-insensitive lookup (first matching entry). -/
def hGet (h : HeadersM) (name : String) : Option String :=
  (List.find? (fun p => lowerStr p.1 = lowerStr name) h).map (fun p => p.2)

/-- `headers.has(name)`. -/
def hHas (h : HeadersM) (name : String) : Bool :=
  List.any h (fun p => lowerStr p.1 = lowerStr name)

/-- `headers.set(name, value)`: replace the existing entry (case-insensitive)
or append a new one; the stored name is lowercased. -/
def hSet (h : HeadersM) (name value : String) : HeadersM :=
  if hHas h name then
    List.map (fun p => if lowerStr p.1 = lowerStr name then (lowerStr name, value) else p) h
  else h ++ [(lowerStr name, value)]

/-- `headers.append(name, value)`: combine with an existing entry using the
`", "` separator (the observable `get`/iteration behaviour), else append. -/
def hAppend (h : HeadersM) (name value : String) : HeadersM :=
  if hHas h name then
    List.map (fun p => if lowerStr p.1 = lowerStr name then (p.1, p.2 ++ ", " ++ value) else p) h
  else h ++ [(lowerStr name, value)]

/-- `new Headers(record)`: fill from a JS record by appending each pair. -/
def headersFromRecord (r : List (String × String)) : HeadersM :=
  r.foldl (fun acc p => hAppend acc p.1 p.2) []

/-- `headersToObject` from the current `src/utils.ts` (not in the snapshot;
the internals doc describes it as converting `Headers` into a plain object
for JSON responses).  On this model the entry list is already that object. -/
def headersToObject (h : HeadersM) : List (String × String) := h

/-- `hopByHopHeaders` from `src/utils.ts`. -/
def hopByHopHeaders : List String :=
  ["connection", "proxy-connection", "keep-alive", "transfer-encoding", "upgrade", "trailer", "te"]

/-- `disallowedRequestHeaders` from `src/utils.ts`. -/
def disallowedRequestHeaders : List String :=
  ["host", "cookie", "authorization", "content-length"]

/-- `safeResponseHeaders` from `src/utils.ts`.  Note: the snapshot's list has
six entries; it does not contain `x-set-cookie`. -/
def safeResponseHeaders : List String :=
  ["content-type", "content-length", "accept-ranges", "content-range", "etag", "last-modified"]

/-- `filterRequestHeaders` from `src/utils.ts`: iterate the input headers and
copy every entry whose lowercased name is in neither denylist. -/
def filterRequestHeaders (input : HeadersM) : HeadersM :=
  input.foldl
    (fun out p =>
      if lowerStr p.1 ∈ hopByHopHeaders then out
      else if lowerStr p.1 ∈ disallowedRequestHeaders then out
      else hSet out p.1 p.2)
    []

/-- `filterResponseHeaders` from `src/utils.ts`: for each allowlisted name,
copy the input's value when present. -/
def filterResponseHeaders (input : HeadersM) : HeadersM :=
  safeResponseHeaders.foldl
    (fun out k =>
      match hGet input k with
      | some v => hSet out k v
      | none => out)
    []

/-- `parseSetCookieHeaders` from `src/utils.ts`: `getAll('set-cookie')`, i.e.
every `set-cookie` entry of the response headers. -/
def parseSetCookieHeaders (headers : HeadersM) : List String :=
  headers.filterMap (fun p => if lowerStr p.1 = "set-cookie" then some p.2 else none)

/-! ## Percent-encoding (the platform `encodeURIComponent`, used by
`urlEncodeXSetCookie` and the DO request URLs) -/

/-- The characters `encodeURIComponent` leaves unescaped. -/
def isUriUnreserved (c : Char) : Bool :=
  (65 ≤ c.toNat && c.toNat ≤ 90) || (97 ≤ c.toNat && c.toNat ≤ 122) ||
  (48 ≤ c.toNat && c.toNat ≤ 57) ||
  c = '-' || c = '_' || c = '.' || c = '!' || c = '~' || c = '*' || c = '\'' ||
  c = '(' || c = ')'

def hexDigit (n : Nat) : Char := "0123456789ABCDEF".data.getD n '0'

/-- UTF-8 encoding of one scalar value. -/
def charUtf8Bytes (c : Char) : List Nat :=
  let n := c.toNat
  if n < 128 then [n]
  else if n < 2048 then [192 + n / 64, 128 + n % 64]
  else if n < 65536 then [224 + n / 4096, 128 + (n / 64) % 64, 128 + n % 64]
  else [240 + n / 262144, 128 + (n / 4096) % 64, 128 + (n / 64) % 64, 128 + n % 64]

/-- The platform `encodeURIComponent`. -/
def encodeURIComponentM (s : String) : String :=
  ⟨s.data.foldr
    (fun c acc =>
      (if isUriUnreserved c then [c]
       else (charUtf8Bytes c).foldr
         (fun b acc2 => '%' :: hexDigit (b / 16) :: hexDigit (b % 16) :: acc2) []) ++ acc)
    []⟩

/-- `urlEncodeXSetCookie` from `src/utils.ts`: percent-encode each observed
`Set-Cookie` value and join with commas; `null` when there are none. -/
def urlEncodeXSetCookie (values : List String) : Option String :=
  if values = [] then none
  else some (joinSep "," (values.map encodeURIComponentM))

/-! ## Session cookie jar (`src/session_do.ts`)

`SessionDO` instances are addressed by `idFromName(sid)` (injective), each
serializing its own reads/writes; the aggregate of all DO states is the
`Store` below, keyed by session id.  `lastUsed` is a wall-clock timestamp
that nothing reads; it is not modelled. -/

/-- JS-object association-list lookup. -/
def lookupA {α : Type} (l : List (String × α)) (k : String) : Option α :=
  (List.find? (fun p => p.1 = k) l).map (fun p => p.2)

/-- JS-object key assignment: overwrite in place, or append a new key. -/
def upsertA {α : Type} (l : List (String × α)) (k : String) (v : α) : List (String × α) :=
  if List.any l (fun p => p.1 = k) then
    List.map (fun p => if p.1 = k then (k, v) else p) l
  else l ++ [(k, v)]

/-- One session's cookies: origin -> (cookie name -> value). -/
abbrev SessionState := List (String × List (String × String))

/-- All Durable-Object cookie state, keyed by session id. -/
abbrev Store := List (String × SessionState)

/-- `parseCookiePair` from `src/session_do.ts`. -/
def parseCookiePair (s : String) : Option (String × String) :=
  match breakAtEq s.data with
  | none => none
  | some (before, after) =>
    let name := trimStr ⟨before⟩
    if name = "" then none else some (name, trimStr ⟨after⟩)

/-- `parseSetCookie` from `src/session_do.ts`, reduced to the name/value pair
(the attribute map it also builds is discarded by the jar write). -/
def parseSetCookie (sc : String) : Option (String × String) :=
  match splitChar ';' sc.data [] with
  | [] => none
  | nv :: _ => if nv = [] then none else parseCookiePair ⟨nv⟩

/-- `SessionDO.load`: stored state or the fresh default. -/
def loadSession (store : Store) (sid : String) : SessionState :=
  (lookupA store sid).getD []

/-- `SessionDO.save`. -/
def saveSession (store : Store) (sid : String) (st : SessionState) : Store :=
  upsertA store sid st

/-- `getCookieHeaderFromDO` from `src/session_do.ts` composed with the DO's
`/getCookieHeader` route: serialize the jar for the origin as
`name=value; name2=value2`; `null` for an empty serialization
(`text || null`). -/
def getCookieHeaderFromDO (store : Store) (sid origin : String) : Option String :=
  let jar := (lookupA (loadSession store sid) origin).getD []
  let header := joinSep "; " (jar.map (fun p => p.1 ++ "=" ++ p.2))
  if header = "" then none else some header

/-- `mergeSetCookiesToDO` from `src/session_do.ts` composed with the DO's
`/mergeSetCookies` route: parse each value, skip unparsable ones, overwrite
by cookie name within the origin's jar. -/
def mergeSetCookiesToDO (store : Store) (sid origin : String) (setCookies : List String) : Store :=
  let st := loadSession store sid
  let jar := (lookupA st origin).getD []
  let jar2 := setCookies.foldl
    (fun j sc =>
      match parseSetCookie sc with
      | none => j
      | some nv => upsertA j nv.1 nv.2)
    jar
  saveSession store sid (upsertA st origin jar2)

/-! ## Upstream relay environment (`src/index.ts`) -/

/-- An upstream response as the worker observes it (`resp` from `fetch`).
`body` is the byte stream. -/
structure RespM where
  status : Nat
  statusText : String
  headers : HeadersM
  url : String
  redirected : Bool
  body : List Nat
  deriving DecidableEq, Repr

/-- `resp.ok`: status in the 200-299 range. -/
def respOk (r : RespM) : Bool := 200 ≤ r.status && r.status ≤ 299

/-- One outbound `fetch(target, init)` performed by the worker
(`redirect: 'follow'` on every path; the oracle's answer is the final
response after redirects). -/
structure OutboundCall where
  target : String
  method : String
  headers : HeadersM
  body : Option (List Nat)
  deriving DecidableEq, Repr

/-- The network: `Except.error` is a rejected `fetch` promise. -/
abbrev Oracle := OutboundCall → Except String RespM

/-- Worker bindings: `CONNECTOR_ORIGIN` plus the optional `SESSION_DO`
namespace; `jsonParses` abstracts the platform `JSON.parse` success
predicate used only by the `responseType: 'json'` materialization (no claim
inspects parsed values). -/
structure Env where
  connectorOrigin : String
  hasDO : Bool
  jsonParses : List Nat → Bool

/-- `DEFAULT_UA` from `src/index.ts`. -/
def DEFAULT_UA : String :=
  "Mozilla/5.0 (Windows NT 10.0; Win64; x64) AppleWebKit/537.36 (KHTML, like Gecko) Chrome/124.0.0.0 Safari/537.36"

/-- Modelled from the spec: `applyBrowserHeaderDefaults` lives in the current
`src/utils.ts`, which is absent from the snapshot (only its caller
`src/index.ts` is present).  Per spec §4.1 and the internals doc it sets
fixed `accept` and `accept-language` defaults when absent. -/
def applyBrowserHeaderDefaults (h : HeadersM) : HeadersM :=
  let h1 := if hHas h "accept" then h
    else hSet h "accept"
      "text/html,application/xhtml+xml,application/xml;q=0.9,image/avif,image/webp,*/*;q=0.8"
  if hHas h1 "accept-language" then h1 else hSet h1 "accept-language" "en-US,en;q=0.9"

/-- `enrichHeadersForUpstream` from `src/index.ts`: default UA, browser
defaults, then cookie injection from the jar; returns the enriched headers
and the target's origin. -/
def enrichHeadersForUpstream (env : Env) (store : Store) (sid target : String)
    (headers : HeadersM) : HeadersM × Option String :=
  let h := if hHas headers "user-agent" then headers else hSet headers "user-agent" DEFAULT_UA
  let h := applyBrowserHeaderDefaults h
  let origin := getOriginFor target
  let h :=
    if sid ≠ "" ∧ origin.isSome ∧ env.hasDO then
      match getCookieHeaderFromDO store sid (origin.getD "") with
      | some cookie => hSet h "cookie" cookie
      | none => h
    else h
  (h, origin)

/-- `persistSetCookies` from `src/index.ts`. -/
def persistSetCookies (env : Env) (store : Store) (sid : String) (origin : Option String)
    (setCookies : List String) : Store :=
  if sid ≠ "" ∧ origin.isSome ∧ setCookies ≠ [] ∧ env.hasDO then
    mergeSetCookiesToDO store sid (origin.getD "") setCookies
  else store

/-- `appendCors` from `src/utils.ts`. -/
def appendCors (h : HeadersM) (allowOrigin : String) : HeadersM :=
  hSet (hSet h "Access-Control-Allow-Origin" (if allowOrigin = "" then "*" else allowOrigin))
    "Access-Control-Expose-Headers"
    "Content-Type, Content-Length, Accept-Ranges, Content-Range, ETag, Last-Modified, X-Set-Cookie"

/-- Methods accepted by `/fetch` and by each `/dispatch` entry. -/
def allowedMethods : List String := ["GET", "HEAD", "POST"]

/-! ## `POST /fetch` (`src/index.ts`) -/

/-- The parsed JSON body of `POST /fetch`; `none` fields are absent
properties (destructuring defaults apply in the handler). -/
structure FetchBody where
  sid : Option String := none
  target : Option String := none
  method : Option String := none
  headers : Option (List (String × String)) := none
  bodyB64 : Option String := none
  deriving DecidableEq, Repr

/-- A single-shot response body: an error text or the streamed upstream
bytes. -/
inductive FBody where
  | text (s : String)
  | stream (bytes : List Nat)
  deriving DecidableEq, Repr

/-- A `/fetch` response. -/
structure SimpleResp where
  status : Nat
  statusText : String
  headers : HeadersM
  body : FBody
  deriving DecidableEq, Repr

/-- An error response of `/fetch` (`new Response(msg, 4xx)` with a
`text/plain` content type plus CORS). -/
def errResp (status : Nat) (msg allowOrigin : String) : SimpleResp :=
  { status, statusText := "",
    headers := appendCors (hSet [] "Content-Type" "text/plain") allowOrigin,
    body := .text msg }

/-- Shared tail of the `/fetch` handler from the upstream call onwards
(the source builds `upstreamReq` and then fetches it). -/
def fetchPerform (env : Env) (oracle : Oracle) (store : Store)
    (allowOrigin sid : String) (origin : Option String) (call : OutboundCall) :
    Except String SimpleResp × Store × List OutboundCall :=
  match oracle call with
  | .error e => (.error e, store, [call])
  | .ok resp =>
    let setCookies := parseSetCookieHeaders resp.headers
    let outHeaders := filterResponseHeaders resp.headers
    let store2 := persistSetCookies env store sid origin setCookies
    let outHeaders :=
      match urlEncodeXSetCookie setCookies with
      | some xsc => hSet outHeaders "X-Set-Cookie" xsc
      | none => outHeaders
    (.ok { status := resp.status, statusText := resp.statusText,
           headers := appendCors outHeaders allowOrigin, body := .stream resp.body },
     store2, [call])

/-- The `POST /fetch` handler from `src/index.ts`.  `body = none` models an
unparsable JSON body.  An `Except.error` result is an uncaught exception
escaping the handler: in particular the `bodyB64` decode is NOT wrapped in
a try/catch there, so a malformed `bodyB64` throws. -/
def fetchHandler (env : Env) (oracle : Oracle) (store : Store) (body : Option FetchBody) :
    Except String SimpleResp × Store × List OutboundCall :=
  let allowOrigin := if env.connectorOrigin = "" then "*" else env.connectorOrigin
  match body with
  | none => (.ok (errResp 400 "Invalid JSON" allowOrigin), store, [])
  | some fb =>
    let sid := fb.sid.getD ""
    let target := fb.target.getD ""
    if ¬ (isHttpsAbsolute target) then
      (.ok (errResp 400 "Only https targets allowed" allowOrigin), store, [])
    else
      let m := upperStr (fb.method.getD "GET")
      if m ∉ allowedMethods then
        (.ok (errResp 405 "Method not allowed" allowOrigin), store, [])
      else
        let filtered := filterRequestHeaders (headersFromRecord (fb.headers.getD []))
        let enriched := enrichHeadersForUpstream env store sid target filtered
        match fb.bodyB64 with
        | some s =>
          if s = "" then
            fetchPerform env oracle store allowOrigin sid enriched.2
              { target, method := m, headers := enriched.1, body := none }
          else
            match base64urlDecodeToUint8Array s with
            | none => (.error "InvalidCharacterError", store, [])
            | some bytes =>
              fetchPerform env oracle store allowOrigin sid enriched.2
                { target, method := m, headers := enriched.1,
                  body := if m = "GET" ∨ m = "HEAD" then none else some bytes }
        | none =>
          fetchPerform env oracle store allowOrigin sid enriched.2
            { target, method := m, headers := enriched.1, body := none }

/-- The `/fetch` route as served: Hono's default `onError` maps an uncaught
exception to a plain 500 "Internal Server Error" response. -/
def fetchEndpoint (env : Env) (oracle : Oracle) (store : Store) (body : Option FetchBody) :
    SimpleResp × Store × List OutboundCall :=
  match fetchHandler env oracle store body with
  | (.ok r, st, calls) => (r, st, calls)
  | (.error _, st, calls) =>
    ({ status := 500, statusText := "",
       headers := hSet [] "Content-Type" "text/plain; charset=UTF-8",
       body := .text "Internal Server Error" }, st, calls)

/-! ## `POST /dispatch` (`src/index.ts`) -/

/-- `MAX_BATCH_REQUESTS` from `src/index.ts`. -/
def MAX_BATCH_REQUESTS : Nat := 16

/-- One entry of the `/dispatch` body (`DispatchUnit`). -/
structure DispatchUnit where
  id : Option String := none
  target : Option String := none
  method : Option String := none
  headers : Option (List (String × String)) := none
  bodyB64 : Option String := none
  responseType : Option String := none
  deriving DecidableEq, Repr

/-- The parsed `/dispatch` envelope (`DispatchBody`); `requests = none` also
covers a non-array `requests` property (`Array.isArray` guard). -/
structure DispatchBody where
  sid : Option String := none
  requests : Option (List DispatchUnit) := none
  pipeline : Option String := none
  deriving DecidableEq, Repr

/-- The materialized body of one batch result.  The constructor records
which presentation the worker chose and the response bytes backing it; the
platform text decode / JSON value itself is not further modelled (no claim
reads it). -/
inductive BodyData where
  | b64 (s : String)
  | text (bytes : List Nat)
  | json (bytes : List Nat)
  deriving DecidableEq, Repr

/-- Modelled from the spec: `arrayBufferToBase64` lives in the current
`src/utils.ts`, absent from the snapshot; per the internals doc it base64
encodes the buffered bytes (standard alphabet, padded). -/
def arrayBufferToBase64 (bytes : List Nat) : String :=
  ⟨(bytesToSextets bytes).map stdB64Char ++ b64pad (bytesToSextets bytes).length⟩

structure BodyPayload where
  encoding : String
  data : BodyData
  note : Option String := none
  deriving DecidableEq, Repr

/-- One entry of `results` in the `/dispatch` response.  The error shapes of
the source carry only `id/ok/status/statusText/headers/error`; the remaining
fields are `none` there. -/
structure UnitResult where
  id : String
  ok : Bool
  status : Nat
  statusText : String
  headers : List (String × String)
  error : Option String := none
  finalUrl : Option String := none
  redirected : Option Bool := none
  durationMs : Option Nat := none
  body : Option BodyPayload := none
  deriving DecidableEq, Repr

/-- The tail of `execUnit` from the upstream fetch onwards (the source's
`try { resp = await fetch(...) } catch` and everything after it). -/
def execUnitFetch (env : Env) (oracle : Oracle) (sid : String) (store : Store)
    (id : String) (origin : Option String) (responseType : String) (call : OutboundCall) :
    UnitResult × Store × List OutboundCall × Option String :=
  match oracle call with
  | .error msg =>
    ({ id, ok := false, status := 0, statusText := "FETCH_ERROR", headers := [],
       error := some msg }, store, [call], none)
  | .ok resp =>
    let setCookies := parseSetCookieHeaders resp.headers
    let store2 := persistSetCookies env store sid origin setCookies
    let outHeaders := filterResponseHeaders resp.headers
    let xscOpt := urlEncodeXSetCookie setCookies
    let outHeaders :=
      match xscOpt with
      | some xsc => hSet outHeaders "X-Set-Cookie" xsc
      | none => outHeaders
    let bodyPayload : Option BodyPayload :=
      if call.method ≠ "HEAD" ∧ responseType ≠ "none" then
        if responseType = "arrayBuffer" then
          some { encoding := "base64", data := .b64 (arrayBufferToBase64 resp.body) }
        else if responseType = "text" then
          some { encoding := "text", data := .text resp.body }
        else if responseType = "json" then
          (if env.jsonParses resp.body then
            some { encoding := "json", data := .json resp.body }
           else
            some { encoding := "text", data := .text resp.body,
                   note := some "Failed to parse JSON; returned raw text." })
        else none
      else none
    ({ id, ok := respOk resp, status := resp.status, statusText := resp.statusText,
       headers := headersToObject outHeaders, finalUrl := some resp.url,
       redirected := some resp.redirected, durationMs := some 0, body := bodyPayload },
     store2, [call], xscOpt)

/-- `execUnit` from the `/dispatch` handler.  Returns the entry result, the
store after the entry's cookie write, the outbound calls attempted (0 or 1),
and the `X-Set-Cookie` value pushed onto the shared aggregate, if any. -/
def execUnit (env : Env) (oracle : Oracle) (sid : String) (store : Store) (index : Nat)
    (unit : DispatchUnit) : UnitResult × Store × List OutboundCall × Option String :=
  let id := strOr unit.id ("req-" ++ toString index)
  let target := unit.target.getD ""
  if ¬ (isHttpsAbsolute target) then
    ({ id, ok := false, status := 400, statusText := "Bad Request", headers := [],
       error := some "Only https targets allowed" }, store, [], none)
  else
    let method := upperStr (strOr unit.method "GET")
    if method ∉ allowedMethods then
      ({ id, ok := false, status := 405, statusText := "Method Not Allowed", headers := [],
         error := some ("Unsupported method " ++ method) }, store, [], none)
    else
      let filtered := filterRequestHeaders (headersFromRecord (unit.headers.getD []))
      let enriched := enrichHeadersForUpstream env store sid target filtered
      let decoded : Except Unit (Option (List Nat)) :=
        match unit.bodyB64 with
        | some s =>
          if s = "" then .ok none
          else
            match base64urlDecodeToUint8Array s with
            | none => .error ()
            | some bytes =>
              .ok (if method ≠ "GET" ∧ method ≠ "HEAD" then some bytes else none)
        | none => .ok none
      match decoded with
      | .error _ =>
        ({ id, ok := false, status := 400, statusText := "Bad Request", headers := [],
           error := some "Invalid bodyB64 payload" }, store, [], none)
      | .ok bodyInit =>
        execUnitFetch env oracle sid store id enriched.2 (strOr unit.responseType "arrayBuffer")
          { target, method, headers := enriched.1,
            body := if method = "GET" ∨ method = "HEAD" then none else bodyInit }

/-- The sequential execution loop of `/dispatch`: each entry's `execUnit`
(cookie write included) completes before the next entry runs, the next
entry's cookie read seeing the store the previous entry produced. -/
def dispatchSeq (env : Env) (oracle : Oracle) (sid : String) :
    List DispatchUnit → Store → Nat → List UnitResult × Store × List OutboundCall × List String
  | [], store, _ => ([], store, [], [])
  | u :: rest, store, idx =>
    let out := execUnit env oracle sid store idx u
    let tail := dispatchSeq env oracle sid rest out.2.1 (idx + 1)
    (out.1 :: tail.1, tail.2.1, out.2.2.1 ++ tail.2.2.1, out.2.2.2.toList ++ tail.2.2.2)

/-- The parallel execution of `/dispatch` (`Promise.all`): results come back
in input order, but the store contents each entry's cookie read observes
depend on the race between siblings; `readStates i` is the store entry `i`
happened to observe.  The interleaving of the writes is not determined, so
no final store is produced. -/
def dispatchPar (env : Env) (oracle : Oracle) (sid : String) (readStates : Nat → Store) :
    List DispatchUnit → Nat → List UnitResult × List OutboundCall × List String
  | [], _ => ([], [], [])
  | u :: rest, idx =>
    let out := execUnit env oracle sid (readStates idx) idx u
    let tail := dispatchPar env oracle sid readStates rest (idx + 1)
    (out.1 :: tail.1, out.2.2.1 ++ tail.2.1, out.2.2.2.toList ++ tail.2.2)

/-- The JSON payload of a 200 `/dispatch` response. -/
structure DispatchPayload where
  sid : String
  pipeline : String
  count : Nat
  results : List UnitResult
  deriving DecidableEq, Repr

/-- A `/dispatch` response together with the observable side effects:
aggregated `X-Set-Cookie` response headers, the final store (`none` in
parallel mode, whose racing writes are not determined), and all upstream
calls attempted. -/
structure DispatchOut where
  status : Nat
  error : Option String := none
  payload : Option DispatchPayload := none
  xsc : List String := []
  finalStore : Option Store := none
  calls : List OutboundCall := []

/-- The `POST /dispatch` handler from `src/index.ts`.  `body = none` models
an unparsable JSON envelope. -/
def dispatchEndpoint (env : Env) (oracle : Oracle) (store : Store) (readStates : Nat → Store)
    (body : Option DispatchBody) : DispatchOut :=
  match body with
  | none => { status := 400, error := some "Invalid JSON body", finalStore := some store }
  | some b =>
    let sid := b.sid.getD ""
    let requests := b.requests.getD []
    if requests.length = 0 then
      { status := 400, error := some "requests array required", finalStore := some store }
    else if requests.length > MAX_BATCH_REQUESTS then
      { status := 400, error := some "Too many requests (max 16)", finalStore := some store }
    else if b.pipeline ≠ some "parallel" then
      let out := dispatchSeq env oracle sid requests store 0
      { status := 200,
        payload := some { sid, pipeline := "sequential", count := out.1.length, results := out.1 },
        xsc := out.2.2.2, finalStore := some out.2.1, calls := out.2.2.1 }
    else
      let out := dispatchPar env oracle sid readStates requests 0
      { status := 200,
        payload := some { sid, pipeline := "parallel", count := out.1.length, results := out.1 },
        xsc := out.2.2, finalStore := none, calls := out.2.1 }

/-! ## Association-list lemmas -/

theorem lookupA_map_replace_ne {α : Type} (l : List (String × α)) (k k' : String) (v : α)
    (h : k ≠ k') :
    lookupA (List.map (fun p => if p.1 = k then (k, v) else p) l) k' = lookupA l k' := by
  induction l with
  | nil => rfl
  | cons p rest ih =>
    by_cases hp : p.1 = k
    · rw [List.map_cons, if_pos hp, lookupA, lookupA,
        List.find?_cons_of_neg _ (by simpa using h),
        List.find?_cons_of_neg _ (by simp [hp, h])]
      exact ih
    · rw [List.map_cons, if_neg hp]
      by_cases hq : p.1 = k'
      · rw [lookupA, lookupA, List.find?_cons_of_pos _ (by simpa using hq),
          List.find?_cons_of_pos _ (by simpa using hq)]
      · rw [lookupA, lookupA, List.find?_cons_of_neg _ (by simpa using hq),
          List.find?_cons_of_neg _ (by simpa using hq)]
        exact ih

theorem lookupA_map_replace_same {α : Type} (l : List (String × α)) (k : String) (v : α)
    (hany : List.any l (fun p => p.1 = k) = true) :
    lookupA (List.map (fun p => if p.1 = k then (k, v) else p) l) k = some v := by
  induction l with
  | nil => simp at hany
  | cons p rest ih =>
    by_cases hp : p.1 = k
    · rw [List.map_cons, if_pos hp, lookupA, List.find?_cons_of_pos _ (by simp)]
      rfl
    · rw [List.map_cons, if_neg hp, lookupA, List.find?_cons_of_neg _ (by simpa using hp)]
      exact ih (by simpa [hp] using hany)

theorem lookupA_upsertA_ne {α : Type} (l : List (String × α)) (k k' : String) (v : α)
    (h : k ≠ k') : lookupA (upsertA l k v) k' = lookupA l k' := by
  rw [upsertA]
  split
  · exact lookupA_map_replace_ne l k k' v h
  · rw [lookupA, lookupA, List.find?_append]
    have h1 : List.find? (fun p => p.1 = k') [(k, v)] = none := by
      simp [List.find?, h]
    rw [h1]
    cases List.find? (fun p => p.1 = k') l <;> rfl

theorem lookupA_upsertA_same {α : Type} (l : List (String × α)) (k : String) (v : α) :
    lookupA (upsertA l k v) k = some v := by
  rw [upsertA]
  split
  · rename_i hany
    exact lookupA_map_replace_same l k v hany
  · rename_i hany
    rw [lookupA, List.find?_append]
    have hnone : List.find? (fun p => p.1 = k) l = none := by
      rw [List.find?_eq_none]
      intro p hp
      simp only [decide_eq_true_eq]
      intro hq
      exact hany (List.any_eq_true.mpr ⟨p, hp, by simp [hq]⟩)
    rw [hnone]
    simp [List.find?]

/-! ## Claim C3: session isolation of the cookie jar -/

/-- C3: merging Set-Cookie values into session A's jar leaves session B's
cookie header for the same origin unchanged, for any two distinct session
ids: cookies written under one session are never visible under another. -/
theorem cookie_session_isolation (store : Store) (A B origin : String)
    (scs : List String) (h : A ≠ B) :
    getCookieHeaderFromDO (mergeSetCookiesToDO store A origin scs) B origin =
      getCookieHeaderFromDO store B origin := by
  simp only [getCookieHeaderFromDO, mergeSetCookiesToDO, saveSession, loadSession,
    lookupA_upsertA_ne _ _ _ _ h]

/-- Witness for C3 at concrete sessions `"a"` and `"b"`. -/
theorem cookie_session_isolation_witness :
    ("a" : String) ≠ "b" ∧
    getCookieHeaderFromDO (mergeSetCookiesToDO [] "a" "https://a.example" ["s=1; Path=/"]) "b"
        "https://a.example" =
      getCookieHeaderFromDO [] "b" "https://a.example" :=
  ⟨by decide, cookie_session_isolation [] "a" "b" "https://a.example" ["s=1; Path=/"] (by decide)⟩

/-! ## Claim C7: the outbound (request) header filter -/

/-- Names dropped by the outbound filter (either denylist). -/
def droppedName (n : String) : Prop :=
  lowerStr n ∈ hopByHopHeaders ∨ lowerStr n ∈ disallowedRequestHeaders

instance (n : String) : Decidable (droppedName n) := by
  rw [droppedName]
  infer_instance

/-- The keep predicate of the outbound filter as a Bool. -/
def requestKeep (p : String × String) : Bool :=
  !(decide (lowerStr p.1 ∈ hopByHopHeaders) || decide (lowerStr p.1 ∈ disallowedRequestHeaders))

theorem hAppend_inv (h : HeadersM) (n v : String)
    (hl : ∀ p ∈ h, p.1 = lowerStr p.1) (hn : (h.map (fun p => p.1)).Nodup) :
    (∀ p ∈ hAppend h n v, p.1 = lowerStr p.1) ∧
    ((hAppend h n v).map (fun p => p.1)).Nodup := by
  rw [hAppend]
  split
  · constructor
    · intro p hp
      obtain ⟨q, hq, rfl⟩ := List.mem_map.mp hp
      by_cases hc : lowerStr q.1 = lowerStr n
      · rw [if_pos hc]
        exact hl q hq
      · rw [if_neg hc]
        exact hl q hq
    · have hkeys : (List.map (fun p => if lowerStr p.1 = lowerStr n then (p.1, p.2 ++ ", " ++ v) else p) h).map
          (fun p => p.1) = h.map (fun p => p.1) := by
        rw [List.map_map]
        apply List.map_congr_left
        intro q _
        by_cases hc : lowerStr q.1 = lowerStr n
        · simp [hc]
        · simp [hc]
      rw [hkeys]
      exact hn
  · rename_i hhas
    have hnotin : (lowerStr n) ∉ h.map (fun p => p.1) := by
      intro hmem
      obtain ⟨q, hq, hq1⟩ := List.mem_map.mp hmem
      apply hhas
      rw [hHas, List.any_eq_true]
      exact ⟨q, hq, by simp [hq1, lowerStr_idem]⟩
    constructor
    · intro p hp
      rcases List.mem_append.mp hp with hp | hp
      · exact hl p hp
      · have : p = (lowerStr n, v) := by simpa using hp
        rw [this]
        exact (lowerStr_idem n).symm
    · rw [List.map_append]
      simp only [List.map_cons, List.map_nil]
      rw [List.nodup_append]
      refine ⟨hn, List.nodup_singleton _, ?_⟩
      intro x hx hx1
      have hxe : x = lowerStr n := by simpa using hx1
      exact hnotin (hxe ▸ hx)

theorem headersFromRecord_inv (rec : List (String × String)) :
    (∀ p ∈ headersFromRecord rec, p.1 = lowerStr p.1) ∧
    ((headersFromRecord rec).map (fun p => p.1)).Nodup := by
  rw [headersFromRecord]
  suffices hgen : ∀ (r : List (String × String)) (acc : HeadersM),
      (∀ p ∈ acc, p.1 = lowerStr p.1) → ((acc.map (fun p => p.1)).Nodup) →
      (∀ p ∈ r.foldl (fun acc p => hAppend acc p.1 p.2) acc, p.1 = lowerStr p.1) ∧
      ((r.foldl (fun acc p => hAppend acc p.1 p.2) acc).map (fun p => p.1)).Nodup by
    exact hgen rec [] (by simp) (by simp)
  intro r
  induction r with
  | nil => intro acc h1 h2; exact ⟨h1, h2⟩
  | cons q r ih =>
    intro acc h1 h2
    have h3 := hAppend_inv acc q.1 q.2 h1 h2
    exact ih (hAppend acc q.1 q.2) h3.1 h3.2

theorem fRH_fold :
    ∀ (rest out : HeadersM),
      (∀ p ∈ rest, p.1 = lowerStr p.1) →
      (∀ p ∈ out, p.1 = lowerStr p.1) →
      (∀ p ∈ out, ∀ q ∈ rest, p.1 ≠ q.1) →
      ((rest.map (fun p => p.1)).Nodup) →
      rest.foldl
        (fun out p =>
          if lowerStr p.1 ∈ hopByHopHeaders then out
          else if lowerStr p.1 ∈ disallowedRequestHeaders then out
          else hSet out p.1 p.2)
        out = out ++ rest.filter requestKeep
  | [], out, _, _, _, _ => by simp
  | p :: rest, out, hlr, hlo, hdisj, hnd => by
    rw [List.map_cons] at hnd
    obtain ⟨hpnin, hnd2⟩ := List.nodup_cons.mp hnd
    have hlr2 : ∀ q ∈ rest, q.1 = lowerStr q.1 := fun q hq => hlr q (by simp [hq])
    by_cases h1 : lowerStr p.1 ∈ hopByHopHeaders
    · have hkeep : requestKeep p = false := by simp [requestKeep, h1]
      rw [List.foldl_cons, if_pos h1, List.filter_cons, hkeep]
      exact fRH_fold rest out hlr2 hlo
        (fun x hx q hq => hdisj x hx q (by simp [hq])) hnd2
    · by_cases h2 : lowerStr p.1 ∈ disallowedRequestHeaders
      · have hkeep : requestKeep p = false := by simp [requestKeep, h2]
        rw [List.foldl_cons, if_neg h1, if_pos h2, List.filter_cons, hkeep]
        exact fRH_fold rest out hlr2 hlo
          (fun x hx q hq => hdisj x hx q (by simp [hq])) hnd2
      · have hkeep : requestKeep p = true := by simp [requestKeep, h1, h2]
        have hset : hSet out p.1 p.2 = out ++ [p] := by
          rw [hSet]
          have hhas : hHas out p.1 = false := by
            rw [hHas]
            simp only [List.any_eq_false, decide_eq_true_eq]
            intro q hq hc
            have hq1 : q.1 = lowerStr q.1 := hlo q hq
            have hp1 : p.1 = lowerStr p.1 := hlr p (by simp)
            exact hdisj q hq p (by simp) (by rw [hq1, hp1]; exact hc)
          rw [if_neg (by simp [hhas]), ← hlr p (by simp)]
        rw [List.foldl_cons, if_neg h1, if_neg h2, hset, List.filter_cons, hkeep]
        have hrec := fRH_fold rest (out ++ [p])
          hlr2
          (by
            intro x hx
            rcases List.mem_append.mp hx with hx | hx
            · exact hlo x hx
            · have : x = p := by simpa using hx
              rw [this]
              exact hlr p (by simp))
          (by
            intro x hx q hq
            rcases List.mem_append.mp hx with hx | hx
            · exact hdisj x hx q (by simp [hq])
            · have hxp : x = p := by simpa using hx
              rw [hxp]
              intro hc
              exact hpnin (hc ▸ List.mem_map.mpr ⟨q, hq, rfl⟩))
          hnd2
        rw [hrec, List.append_assoc]
        rfl

theorem find?_filter_of_imp {α : Type} (l : List α) (p q : α → Bool)
    (h : ∀ x, p x = true → q x = true) :
    List.find? p (l.filter q) = List.find? p l := by
  induction l with
  | nil => rfl
  | cons x l ih =>
    rw [List.filter_cons]
    by_cases hq : q x = true
    · rw [if_pos hq]
      by_cases hp : p x = true
      · rw [List.find?_cons_of_pos _ hp, List.find?_cons_of_pos _ hp]
      · rw [List.find?_cons_of_neg _ (by simpa using hp),
          List.find?_cons_of_neg _ (by simpa using hp)]
        exact ih
    · rw [if_neg hq]
      have hp : ¬ (p x = true) := fun hp => hq (h x hp)
      rw [List.find?_cons_of_neg _ (by simpa using hp)]
      exact ih

theorem find?_filter_none {α : Type} (l : List α) (p q : α → Bool)
    (h : ∀ x, p x = true → q x = false) :
    List.find? p (l.filter q) = none := by
  induction l with
  | nil => rfl
  | cons x l ih =>
    rw [List.filter_cons]
    by_cases hq : q x = true
    · rw [if_pos hq]
      have hp : ¬ (p x = true) := fun hp => by rw [h x hp] at hq; exact absurd hq (by simp)
      rw [List.find?_cons_of_neg _ (by simpa using hp)]
      exact ih
    · rw [if_neg hq]
      exact ih

/-- The outbound request filter applied to a `Headers` object built from a
caller record is the plain filter by the denylists. -/
theorem filterRequestHeaders_eq_filter (rec : List (String × String)) :
    filterRequestHeaders (headersFromRecord rec) =
      (headersFromRecord rec).filter requestKeep := by
  obtain ⟨hl, hn⟩ := headersFromRecord_inv rec
  rw [filterRequestHeaders]
  have hfold := fRH_fold (headersFromRecord rec) [] hl (by simp) (by simp) hn
  simpa using hfold

/-- C7 (amended): for every caller record and every name, the outbound
filter's observable result is: names in either denylist (matched
case-insensitively) are gone, and every other name looks up to exactly the
value it had in the caller's `Headers` object. -/
theorem filterRequestHeaders_get (rec : List (String × String)) (name : String) :
    hGet (filterRequestHeaders (headersFromRecord rec)) name =
      if droppedName name then none else hGet (headersFromRecord rec) name := by
  rw [filterRequestHeaders_eq_filter, hGet, hGet]
  by_cases hd : droppedName name
  · rw [if_pos hd]
    rw [find?_filter_none]
    · rfl
    · intro x hx
      have hx1 : lowerStr x.1 = lowerStr name := by simpa using hx
      rcases hd with hd | hd
      · simp [requestKeep, hx1, hd]
      · simp [requestKeep, hx1, hd]
  · rw [if_neg hd]
    rw [find?_filter_of_imp]
    intro x hx
    have hx1 : lowerStr x.1 = lowerStr name := by simpa using hx
    rw [droppedName] at hd
    push_neg at hd
    simp [requestKeep, hx1, hd.1, hd.2]

/-- C7 counterexample: the claim's "name's case preserved" part fails.  The
`Headers` container normalizes names to lowercase (per the Fetch standard's
iteration behaviour, which the worker's filter copies from), so a caller's
`X-Custom` survives the filter only as `x-custom`: the filtered entry list
is exactly `[("x-custom", "v")]`, which differs from a case-preserved
`[("X-Custom", "v")]`, even though a case-insensitive lookup still finds the
value. -/
theorem filterRequestHeaders_lowercases_names :
    filterRequestHeaders (headersFromRecord [("X-Custom", "v")]) = [("x-custom", "v")] ∧
    (([("x-custom", "v")] : HeadersM) ≠ [("X-Custom", "v")]) ∧
    hGet (filterRequestHeaders (headersFromRecord [("X-Custom", "v")])) "X-Custom" =
      some "v" :=
  ⟨by decide, by decide, by decide⟩

/-! ## Concrete fixtures used by several claims -/

/-- Worker bindings with the Durable Object configured. -/
def envDO : Env := { connectorOrigin := "*", hasDO := true, jsonParses := fun _ => false }

/-- A network where every upstream fetch fails (the promise rejects). -/
def oracleDown : Oracle := fun _ => .error "network down"

/-- Mock upstream response for the sequential-batch cookie scenario: the
first target's response carries `Set-Cookie: s=1`. -/
def c4Resp1 : RespM :=
  { status := 200, statusText := "OK", headers := [("set-cookie", "s=1")],
    url := "https://site.example/one", redirected := false, body := [] }

def c4Resp2 : RespM :=
  { status := 200, statusText := "OK", headers := [],
    url := "https://site.example/two", redirected := false, body := [] }

/-- Mock network for the sequential-batch cookie scenario. -/
def c4Oracle : Oracle := fun c =>
  if c.target = "https://site.example/one" then .ok c4Resp1 else .ok c4Resp2

/-- Batch entry 1: targets the origin whose response sets `s=1`. -/
def c4u1 : DispatchUnit :=
  { target := some "https://site.example/one", responseType := some "none" }

/-- Batch entry 2: targets the same origin. -/
def c4u2 : DispatchUnit :=
  { target := some "https://site.example/two", responseType := some "none" }

/-! ## Claim C1: the inbound (response) header filter -/

/-- C1 (divergence): contrary to the spec's allowlist, the snapshot's
`safeResponseHeaders` has no `x-set-cookie` entry, so `filterResponseHeaders`
drops an upstream `x-set-cookie` header.  At this input the filter keeps only
`content-type`, dropping `x-set-cookie` (which the claim says is kept) along
with `set-cookie` and `server` (which it correctly drops). -/
theorem filterResponseHeaders_drops_x_set_cookie :
    filterResponseHeaders
        [("x-set-cookie", "s%3D1"), ("content-type", "text/html"),
         ("set-cookie", "a=1"), ("server", "nginx")] =
      [("content-type", "text/html")] := by decide

/-! ## Claim C2: malformed `bodyB64` on `POST /fetch` -/

/-- C2 (divergence): the `bodyB64` decode in the `/fetch` handler is not
wrapped in a try/catch, so a malformed `bodyB64` with a valid https target
and allowed method escapes as an uncaught exception and is served as a 500,
not the 4xx the spec's validation-error taxonomy promises; no upstream call
is attempted. -/
theorem fetch_malformed_bodyB64_returns_500 :
    (fetchEndpoint envDO oracleDown []
        (some { target := some "https://example.com/x", method := some "POST",
                bodyB64 := some "!!!" })).1.status = 500 ∧
    (fetchEndpoint envDO oracleDown []
        (some { target := some "https://example.com/x", method := some "POST",
                bodyB64 := some "!!!" })).2.2 = [] := by
  exact ⟨by decide, by decide⟩

/-! ## Claim C4: sequential batches thread the cookie jar -/

/-- C4: (1) in sequential mode entry 2 runs against exactly the store entry
1's `execUnit` produced (its cookie-jar write included); (2) consequently,
in the 2-entry scenario where entry 1's mock response sets `Set-Cookie: s=1`
and entry 2 targets the same origin, entry 2's outbound request carries
`Cookie: s=1` (for any non-empty session id and a jar with nothing stored
for it). -/
theorem sequential_cookie_propagation :
    (∀ (env : Env) (oracle : Oracle) (sid : String) (u1 u2 : DispatchUnit)
        (store : Store) (idx : Nat),
      (dispatchSeq env oracle sid [u1, u2] store idx).1 =
        [(execUnit env oracle sid store idx u1).1,
         (execUnit env oracle sid (execUnit env oracle sid store idx u1).2.1 (idx + 1) u2).1]) ∧
    ((dispatchEndpoint envDO c4Oracle [] (fun _ => [])
        (some { sid := some "s1", requests := some [c4u1, c4u2] })).calls.get? 1).map
          (fun c => hGet c.headers "cookie") = some (some "s=1") := by
  constructor
  · intro env oracle sid u1 u2 store idx
    rfl
  · decide

/-! ## Claim C6: batch size gate precedes all network activity -/

/-- C6: an empty or over-sized (`> 16`) request list makes `/dispatch`
answer 400 with zero upstream calls attempted. -/
theorem dispatch_size_gate (env : Env) (oracle : Oracle) (store : Store)
    (readStates : Nat → Store) (b : DispatchBody)
    (h : b.requests.getD [] = [] ∨ 16 < (b.requests.getD []).length) :
    (dispatchEndpoint env oracle store readStates (some b)).status = 400 ∧
    (dispatchEndpoint env oracle store readStates (some b)).calls = [] := by
  rcases h with h | h
  · simp [dispatchEndpoint, h]
  · have h0 : ¬ ((b.requests.getD []).length = 0) := by omega
    have h16 : (b.requests.getD []).length > MAX_BATCH_REQUESTS := by
      simpa [MAX_BATCH_REQUESTS] using h
    simp [dispatchEndpoint, h0, h16]

/-- Witness for C6 with a 17-entry batch. -/
theorem dispatch_size_gate_witness :
    (({ sid := some "s1", requests := some (List.replicate 17 c4u1) } : DispatchBody).requests.getD [] = [] ∨
      16 < (({ sid := some "s1", requests := some (List.replicate 17 c4u1) } : DispatchBody).requests.getD []).length) ∧
    ((dispatchEndpoint envDO oracleDown [] (fun _ => [])
        (some { sid := some "s1", requests := some (List.replicate 17 c4u1) })).status = 400 ∧
     (dispatchEndpoint envDO oracleDown [] (fun _ => [])
        (some { sid := some "s1", requests := some (List.replicate 17 c4u1) })).calls = []) :=
  ⟨by decide,
   dispatch_size_gate envDO oracleDown [] (fun _ => [])
     { sid := some "s1", requests := some (List.replicate 17 c4u1) } (by decide)⟩

/-! ## Claim C10: any pipeline value other than "parallel" runs sequentially -/

/-- C10: for a well-sized batch whose `pipeline` is anything but the exact
string `"parallel"` (absent, misspelled or differently cased), `/dispatch`
raises no validation error: it answers 200, executes the sequential loop,
and reports `pipeline: "sequential"`. -/
theorem dispatch_pipeline_defaults_sequential (env : Env) (oracle : Oracle) (store : Store)
    (readStates : Nat → Store) (b : DispatchBody)
    (hp : b.pipeline ≠ some "parallel")
    (h0 : (b.requests.getD []).length ≠ 0)
    (h16 : (b.requests.getD []).length ≤ 16) :
    dispatchEndpoint env oracle store readStates (some b) =
      { status := 200,
        payload := some
          { sid := b.sid.getD "", pipeline := "sequential",
            count := (dispatchSeq env oracle (b.sid.getD "") (b.requests.getD []) store 0).1.length,
            results := (dispatchSeq env oracle (b.sid.getD "") (b.requests.getD []) store 0).1 },
        xsc := (dispatchSeq env oracle (b.sid.getD "") (b.requests.getD []) store 0).2.2.2,
        finalStore := some (dispatchSeq env oracle (b.sid.getD "") (b.requests.getD []) store 0).2.1,
        calls := (dispatchSeq env oracle (b.sid.getD "") (b.requests.getD []) store 0).2.2.1 } := by
  have hgt : ¬ ((b.requests.getD []).length > MAX_BATCH_REQUESTS) := by
    simp only [MAX_BATCH_REQUESTS]
    omega
  simp [dispatchEndpoint, h0, hgt, hp]

/-! ## Claim C5: per-entry failure isolation in `/dispatch` -/

/-- The entry's `bodyB64`, if present and nonempty, decodes (so the
`try/catch` around the decode does not fire). -/
def decodesOk (u : DispatchUnit) : Prop :=
  match u.bodyB64 with
  | some s => s = "" ∨ (base64urlDecodeToUint8Array s).isSome = true
  | none => True

/-- A validated entry reduces to its fetch stage: the outbound call carries
the entry's target, the uppercased method, and the enriched headers. -/
theorem execUnit_reduce (env : Env) (oracle : Oracle) (sid : String) (store : Store)
    (idx : Nat) (u : DispatchUnit)
    (htar : isHttpsAbsolute (u.target.getD "") = true)
    (hm : upperStr (strOr u.method "GET") ∈ allowedMethods)
    (hbody : decodesOk u) :
    ∃ bodyInit : Option (List Nat),
      execUnit env oracle sid store idx u =
        execUnitFetch env oracle sid store (strOr u.id ("req-" ++ toString idx))
          (enrichHeadersForUpstream env store sid (u.target.getD "")
            (filterRequestHeaders (headersFromRecord (u.headers.getD [])))).2
          (strOr u.responseType "arrayBuffer")
          { target := u.target.getD "",
            method := upperStr (strOr u.method "GET"),
            headers := (enrichHeadersForUpstream env store sid (u.target.getD "")
              (filterRequestHeaders (headersFromRecord (u.headers.getD [])))).1,
            body := bodyInit } := by
  rw [execUnit, if_neg (by simp [htar]), if_neg (by simp [hm])]
  rcases hb : u.bodyB64 with _ | s
  · exact ⟨_, rfl⟩
  · rw [decodesOk, hb] at hbody
    have hbody2 : s = "" ∨ (base64urlDecodeToUint8Array s).isSome = true := hbody
    by_cases hs : s = ""
    · subst hs
      exact ⟨_, rfl⟩
    · rcases hbytes : base64urlDecodeToUint8Array s with _ | bytes
      · rcases hbody2 with h | h
        · exact absurd h hs
        · rw [hbytes] at h
          simp at h
      · simp only [if_neg hs, hbytes]
        exact ⟨_, rfl⟩

/-- The error shape `/dispatch` records for a network failure. -/
def fetchErrorResult (id msg : String) : UnitResult :=
  { id, ok := false, status := 0, statusText := "FETCH_ERROR", headers := [],
    error := some msg }

theorem execUnitFetch_error (env : Env) (oracle : Oracle) (sid : String) (store : Store)
    (id : String) (origin : Option String) (rt : String) (call : OutboundCall) (msg : String)
    (h : oracle call = .error msg) :
    execUnitFetch env oracle sid store id origin rt call =
      (fetchErrorResult id msg, store, [call], none) := by
  rw [execUnitFetch, h]
  rfl

/-- A validated entry whose upstream fetch fails is recorded as
`ok:false / status 0 / FETCH_ERROR`, and the entry leaves the store
untouched — for every store (hence under any interleaving of siblings). -/
theorem execUnit_fetch_error (env : Env) (oracle : Oracle) (sid : String) (store : Store)
    (idx : Nat) (u : DispatchUnit) (msg : String)
    (htar : isHttpsAbsolute (u.target.getD "") = true)
    (hm : upperStr (strOr u.method "GET") ∈ allowedMethods)
    (hbody : decodesOk u)
    (hfail : ∀ c : OutboundCall, c.target = u.target.getD "" → oracle c = .error msg) :
    (execUnit env oracle sid store idx u).1 =
      fetchErrorResult (strOr u.id ("req-" ++ toString idx)) msg ∧
    (execUnit env oracle sid store idx u).2.1 = store := by
  obtain ⟨bi, heq⟩ := execUnit_reduce env oracle sid store idx u htar hm hbody
  rw [heq, execUnitFetch_error _ _ _ _ _ _ _ _ msg (hfail _ rfl)]
  exact ⟨rfl, rfl⟩

/-- The error shape `/dispatch` records for a non-https target. -/
def badTargetResult (id : String) : UnitResult :=
  { id, ok := false, status := 400, statusText := "Bad Request", headers := [],
    error := some "Only https targets allowed" }

/-- The error shape `/dispatch` records for a disallowed method. -/
def badMethodResult (id m : String) : UnitResult :=
  { id, ok := false, status := 405, statusText := "Method Not Allowed", headers := [],
    error := some ("Unsupported method " ++ m) }

/-- The error shape `/dispatch` records for a malformed `bodyB64`. -/
def badBodyResult (id : String) : UnitResult :=
  { id, ok := false, status := 400, statusText := "Bad Request", headers := [],
    error := some "Invalid bodyB64 payload" }

/-- An entry with a non-https target fails alone, before any network or
store activity, for every store. -/
theorem execUnit_bad_target (env : Env) (oracle : Oracle) (sid : String) (store : Store)
    (idx : Nat) (u : DispatchUnit)
    (htar : isHttpsAbsolute (u.target.getD "") = false) :
    execUnit env oracle sid store idx u =
      (badTargetResult (strOr u.id ("req-" ++ toString idx)), store, [], none) := by
  rw [execUnit, if_pos (by simp [htar])]
  rfl

/-- An entry whose uppercased method is outside {GET, HEAD, POST} fails
alone, before any network or store activity, for every store. -/
theorem execUnit_bad_method (env : Env) (oracle : Oracle) (sid : String) (store : Store)
    (idx : Nat) (u : DispatchUnit)
    (htar : isHttpsAbsolute (u.target.getD "") = true)
    (hmn : upperStr (strOr u.method "GET") ∉ allowedMethods) :
    execUnit env oracle sid store idx u =
      (badMethodResult (strOr u.id ("req-" ++ toString idx)) (upperStr (strOr u.method "GET")),
       store, [], none) := by
  rw [execUnit, if_neg (by simp [htar]), if_pos hmn]
  rfl

/-- An entry whose `bodyB64` does not decode fails alone (the try/catch
around the decode), before any network or store activity, for every
store. -/
theorem execUnit_bad_body (env : Env) (oracle : Oracle) (sid : String) (store : Store)
    (idx : Nat) (u : DispatchUnit) (s : String)
    (htar : isHttpsAbsolute (u.target.getD "") = true)
    (hm : upperStr (strOr u.method "GET") ∈ allowedMethods)
    (hb : u.bodyB64 = some s) (hs : s ≠ "")
    (hd : base64urlDecodeToUint8Array s = none) :
    execUnit env oracle sid store idx u =
      (badBodyResult (strOr u.id ("req-" ++ toString idx)), store, [], none) := by
  rw [execUnit, if_neg (by simp [htar]), if_neg (by simp [hm])]
  simp only [hb, if_neg hs, hd]
  rfl

theorem dispatchSeq_length (env : Env) (oracle : Oracle) (sid : String) :
    ∀ (units : List DispatchUnit) (store : Store) (idx : Nat),
      (dispatchSeq env oracle sid units store idx).1.length = units.length
  | [], _, _ => rfl
  | u :: rest, store, idx => by
    simp [dispatchSeq, dispatchSeq_length env oracle sid rest _ _]

theorem dispatchSeq_get (env : Env) (oracle : Oracle) (sid : String) :
    ∀ (units : List DispatchUnit) (store : Store) (idx i : Nat) (hi : i < units.length),
      ∃ st : Store, (dispatchSeq env oracle sid units store idx).1.get? i =
        some (execUnit env oracle sid st (idx + i) (units.get ⟨i, hi⟩)).1
  | [], _, _, _, hi => absurd hi (by simp)
  | u :: rest, store, idx, 0, _ => ⟨store, by simp [dispatchSeq]⟩
  | u :: rest, store, idx, i + 1, hi => by
    obtain ⟨st, hst⟩ := dispatchSeq_get env oracle sid rest
      (execUnit env oracle sid store idx u).2.1 (idx + 1) i (by simpa using hi)
    refine ⟨st, ?_⟩
    rw [show idx + (i + 1) = (idx + 1) + i by omega]
    simpa [dispatchSeq] using hst

theorem dispatchPar_length (env : Env) (oracle : Oracle) (sid : String)
    (readStates : Nat → Store) :
    ∀ (units : List DispatchUnit) (idx : Nat),
      (dispatchPar env oracle sid readStates units idx).1.length = units.length
  | [], _ => rfl
  | u :: rest, idx => by
    simp [dispatchPar, dispatchPar_length env oracle sid readStates rest _]

theorem dispatchPar_get (env : Env) (oracle : Oracle) (sid : String)
    (readStates : Nat → Store) :
    ∀ (units : List DispatchUnit) (idx i : Nat) (hi : i < units.length),
      (dispatchPar env oracle sid readStates units idx).1.get? i =
        some (execUnit env oracle sid (readStates (idx + i)) (idx + i) (units.get ⟨i, hi⟩)).1
  | [], _, _, hi => absurd hi (by simp)
  | u :: rest, idx, 0, _ => by simp [dispatchPar]
  | u :: rest, idx, i + 1, hi => by
    have hst := dispatchPar_get env oracle sid readStates rest (idx + 1) i (by simpa using hi)
    rw [show idx + (i + 1) = (idx + 1) + i by omega]
    simpa [dispatchPar] using hst

/-- A well-sized batch (either pipeline) answers 200 with one result per
entry. -/
theorem dispatch_batch_ok (env : Env) (oracle : Oracle) (store : Store)
    (readStates : Nat → Store) (b : DispatchBody)
    (h0 : (b.requests.getD []).length ≠ 0)
    (h16 : (b.requests.getD []).length ≤ 16) :
    (dispatchEndpoint env oracle store readStates (some b)).status = 200 ∧
    (dispatchEndpoint env oracle store readStates (some b)).payload.map
        (fun p => p.results.length) = some (b.requests.getD []).length := by
  have hgt : ¬ ((b.requests.getD []).length > MAX_BATCH_REQUESTS) := by
    simp only [MAX_BATCH_REQUESTS]
    omega
  by_cases hp : b.pipeline ≠ some "parallel"
  · have hout : dispatchEndpoint env oracle store readStates (some b) =
        { status := 200,
          payload := some
            { sid := b.sid.getD "", pipeline := "sequential",
              count := (dispatchSeq env oracle (b.sid.getD "") (b.requests.getD []) store 0).1.length,
              results := (dispatchSeq env oracle (b.sid.getD "") (b.requests.getD []) store 0).1 },
          xsc := (dispatchSeq env oracle (b.sid.getD "") (b.requests.getD []) store 0).2.2.2,
          finalStore := some (dispatchSeq env oracle (b.sid.getD "") (b.requests.getD []) store 0).2.1,
          calls := (dispatchSeq env oracle (b.sid.getD "") (b.requests.getD []) store 0).2.2.1 } := by
      simp [dispatchEndpoint, h0, hgt, hp]
    rw [hout]
    refine ⟨rfl, ?_⟩
    show some ((dispatchSeq env oracle (b.sid.getD "") (b.requests.getD []) store 0).1.length) =
      some (b.requests.getD []).length
    rw [dispatchSeq_length]
  · have hpe : b.pipeline = some "parallel" := not_not.mp hp
    have hout : dispatchEndpoint env oracle store readStates (some b) =
        { status := 200,
          payload := some
            { sid := b.sid.getD "", pipeline := "parallel",
              count := (dispatchPar env oracle (b.sid.getD "") readStates (b.requests.getD []) 0).1.length,
              results := (dispatchPar env oracle (b.sid.getD "") readStates (b.requests.getD []) 0).1 },
          xsc := (dispatchPar env oracle (b.sid.getD "") readStates (b.requests.getD []) 0).2.2,
          finalStore := none,
          calls := (dispatchPar env oracle (b.sid.getD "") readStates (b.requests.getD []) 0).2.1 } := by
      simp [dispatchEndpoint, h0, hgt, hpe]
    rw [hout]
    refine ⟨rfl, ?_⟩
    show some ((dispatchPar env oracle (b.sid.getD "") readStates (b.requests.getD []) 0).1.length) =
      some (b.requests.getD []).length
    rw [dispatchPar_length]

/-- Lifting a per-entry `execUnit` outcome that holds for every store (so
for whatever jar state the entry observed, in either pipeline mode) to the
batch's `results` list. -/
theorem dispatch_results_get (env : Env) (oracle : Oracle) (store : Store)
    (readStates : Nat → Store) (b : DispatchBody) (i : Nat) (r : UnitResult)
    (h0 : (b.requests.getD []).length ≠ 0)
    (h16 : (b.requests.getD []).length ≤ 16)
    (hi : i < (b.requests.getD []).length)
    (hexec : ∀ st : Store,
      (execUnit env oracle (b.sid.getD "") st i ((b.requests.getD []).get ⟨i, hi⟩)).1 = r) :
    (dispatchEndpoint env oracle store readStates (some b)).payload.map
        (fun p => p.results.get? i) = some (some r) := by
  have hgt : ¬ ((b.requests.getD []).length > MAX_BATCH_REQUESTS) := by
    simp only [MAX_BATCH_REQUESTS]
    omega
  by_cases hp : b.pipeline ≠ some "parallel"
  · have hout : dispatchEndpoint env oracle store readStates (some b) =
        { status := 200,
          payload := some
            { sid := b.sid.getD "", pipeline := "sequential",
              count := (dispatchSeq env oracle (b.sid.getD "") (b.requests.getD []) store 0).1.length,
              results := (dispatchSeq env oracle (b.sid.getD "") (b.requests.getD []) store 0).1 },
          xsc := (dispatchSeq env oracle (b.sid.getD "") (b.requests.getD []) store 0).2.2.2,
          finalStore := some (dispatchSeq env oracle (b.sid.getD "") (b.requests.getD []) store 0).2.1,
          calls := (dispatchSeq env oracle (b.sid.getD "") (b.requests.getD []) store 0).2.2.1 } := by
      simp [dispatchEndpoint, h0, hgt, hp]
    obtain ⟨st, hst⟩ := dispatchSeq_get env oracle (b.sid.getD "") (b.requests.getD []) store 0 i hi
    rw [show (0 : Nat) + i = i by omega] at hst
    rw [hout]
    show some ((dispatchSeq env oracle (b.sid.getD "") (b.requests.getD []) store 0).1.get? i) =
      some (some r)
    rw [hst, hexec st]
  · have hpe : b.pipeline = some "parallel" := not_not.mp hp
    have hout : dispatchEndpoint env oracle store readStates (some b) =
        { status := 200,
          payload := some
            { sid := b.sid.getD "", pipeline := "parallel",
              count := (dispatchPar env oracle (b.sid.getD "") readStates (b.requests.getD []) 0).1.length,
              results := (dispatchPar env oracle (b.sid.getD "") readStates (b.requests.getD []) 0).1 },
          xsc := (dispatchPar env oracle (b.sid.getD "") readStates (b.requests.getD []) 0).2.2,
          finalStore := none,
          calls := (dispatchPar env oracle (b.sid.getD "") readStates (b.requests.getD []) 0).2.1 } := by
      simp [dispatchEndpoint, h0, hgt, hpe]
    have hst := dispatchPar_get env oracle (b.sid.getD "") readStates (b.requests.getD []) 0 i hi
    rw [show (0 : Nat) + i = i by omega] at hst
    rw [hout]
    show some ((dispatchPar env oracle (b.sid.getD "") readStates (b.requests.getD []) 0).1.get? i) =
      some (some r)
    rw [hst, hexec (readStates i)]

/-- C5: for every well-formed batch (1..16 entries, either pipeline), (1)
the `/dispatch` response is 200 with one result per entry in input order —
with no assumption on the entries, so also for batches consisting only of
failures; and a failing entry is recorded as a failed result for that entry
alone, leaving the sibling entries to their own outcomes (each conjunct
holds for whatever store the entry observed): (2) a non-https target is
recorded as the 400 "Only https targets allowed" result, (3) a disallowed
method as the 405 "Unsupported method" result, (4) a malformed `bodyB64`
as the 400 "Invalid bodyB64 payload" result, and (5) a network failure as
the `ok:false, status 0, statusText "FETCH_ERROR"` result. -/
theorem dispatch_per_entry_isolation :
    (∀ (env : Env) (oracle : Oracle) (store : Store) (readStates : Nat → Store)
        (b : DispatchBody),
      (b.requests.getD []).length ≠ 0 → (b.requests.getD []).length ≤ 16 →
      (dispatchEndpoint env oracle store readStates (some b)).status = 200 ∧
      (dispatchEndpoint env oracle store readStates (some b)).payload.map
          (fun p => p.results.length) = some (b.requests.getD []).length) ∧
    (∀ (env : Env) (oracle : Oracle) (store : Store) (readStates : Nat → Store)
        (b : DispatchBody) (i : Nat)
        (_h0 : (b.requests.getD []).length ≠ 0) (_h16 : (b.requests.getD []).length ≤ 16)
        (hi : i < (b.requests.getD []).length),
      isHttpsAbsolute (((b.requests.getD []).get ⟨i, hi⟩).target.getD "") = false →
      (dispatchEndpoint env oracle store readStates (some b)).payload.map
          (fun p => p.results.get? i) =
        some (some (badTargetResult
          (strOr ((b.requests.getD []).get ⟨i, hi⟩).id ("req-" ++ toString i))))) ∧
    (∀ (env : Env) (oracle : Oracle) (store : Store) (readStates : Nat → Store)
        (b : DispatchBody) (i : Nat)
        (_h0 : (b.requests.getD []).length ≠ 0) (_h16 : (b.requests.getD []).length ≤ 16)
        (hi : i < (b.requests.getD []).length),
      isHttpsAbsolute (((b.requests.getD []).get ⟨i, hi⟩).target.getD "") = true →
      upperStr (strOr ((b.requests.getD []).get ⟨i, hi⟩).method "GET") ∉ allowedMethods →
      (dispatchEndpoint env oracle store readStates (some b)).payload.map
          (fun p => p.results.get? i) =
        some (some (badMethodResult
          (strOr ((b.requests.getD []).get ⟨i, hi⟩).id ("req-" ++ toString i))
          (upperStr (strOr ((b.requests.getD []).get ⟨i, hi⟩).method "GET"))))) ∧
    (∀ (env : Env) (oracle : Oracle) (store : Store) (readStates : Nat → Store)
        (b : DispatchBody) (i : Nat) (s : String)
        (_h0 : (b.requests.getD []).length ≠ 0) (_h16 : (b.requests.getD []).length ≤ 16)
        (hi : i < (b.requests.getD []).length),
      isHttpsAbsolute (((b.requests.getD []).get ⟨i, hi⟩).target.getD "") = true →
      upperStr (strOr ((b.requests.getD []).get ⟨i, hi⟩).method "GET") ∈ allowedMethods →
      ((b.requests.getD []).get ⟨i, hi⟩).bodyB64 = some s → s ≠ "" →
      base64urlDecodeToUint8Array s = none →
      (dispatchEndpoint env oracle store readStates (some b)).payload.map
          (fun p => p.results.get? i) =
        some (some (badBodyResult
          (strOr ((b.requests.getD []).get ⟨i, hi⟩).id ("req-" ++ toString i))))) ∧
    (∀ (env : Env) (oracle : Oracle) (store : Store) (readStates : Nat → Store)
        (b : DispatchBody) (i : Nat) (msg : String)
        (_h0 : (b.requests.getD []).length ≠ 0) (_h16 : (b.requests.getD []).length ≤ 16)
        (hi : i < (b.requests.getD []).length),
      isHttpsAbsolute (((b.requests.getD []).get ⟨i, hi⟩).target.getD "") = true →
      upperStr (strOr ((b.requests.getD []).get ⟨i, hi⟩).method "GET") ∈ allowedMethods →
      decodesOk ((b.requests.getD []).get ⟨i, hi⟩) →
      (∀ c : OutboundCall,
        c.target = ((b.requests.getD []).get ⟨i, hi⟩).target.getD "" →
        oracle c = .error msg) →
      (dispatchEndpoint env oracle store readStates (some b)).payload.map
          (fun p => p.results.get? i) =
        some (some (fetchErrorResult
          (strOr ((b.requests.getD []).get ⟨i, hi⟩).id ("req-" ++ toString i)) msg))) := by
  refine ⟨dispatch_batch_ok, ?_, ?_, ?_, ?_⟩
  · intro env oracle store readStates b i h0 h16 hi htar
    exact dispatch_results_get env oracle store readStates b i _ h0 h16 hi
      (fun st => by rw [execUnit_bad_target env oracle (b.sid.getD "") st i _ htar])
  · intro env oracle store readStates b i h0 h16 hi htar hmn
    exact dispatch_results_get env oracle store readStates b i _ h0 h16 hi
      (fun st => by rw [execUnit_bad_method env oracle (b.sid.getD "") st i _ htar hmn])
  · intro env oracle store readStates b i s h0 h16 hi htar hm hb hs hd
    exact dispatch_results_get env oracle store readStates b i _ h0 h16 hi
      (fun st => by rw [execUnit_bad_body env oracle (b.sid.getD "") st i _ s htar hm hb hs hd])
  · intro env oracle store readStates b i msg h0 h16 hi htar hm hbody hfail
    exact dispatch_results_get env oracle store readStates b i _ h0 h16 hi
      (fun st => (execUnit_fetch_error env oracle (b.sid.getD "") st i _ msg htar hm hbody hfail).1)

/-- Batch entry with a non-https target (per-entry validation failure). -/
def u5badTarget : DispatchUnit := { target := some "http://plain.example" }

/-- Batch entry with a disallowed method. -/
def u5badMethod : DispatchUnit :=
  { target := some "https://example.com/a", method := some "DELETE" }

/-- Batch entry with a malformed `bodyB64`. -/
def u5badBody : DispatchUnit :=
  { target := some "https://example.com/a", method := some "POST", bodyB64 := some "%%" }

/-- A 4-entry batch exhibiting all four per-entry failure kinds at once. -/
def b5mixed : DispatchBody :=
  { sid := some "s1", requests := some [u5badTarget, u5badMethod, u5badBody, c4u1] }

/-- A parallel batch consisting only of failing entries. -/
def b5parFail : DispatchBody :=
  { sid := some "s1", pipeline := some "parallel",
    requests := some [u5badTarget, u5badMethod] }

/-- Witness for C5: one batch containing all four failure kinds (bad
target, bad method, bad bodyB64, network failure under a dead network)
still answers 200 with four results, each entry recorded with its own
failure shape; and a parallel batch of only failing entries also answers
200. -/
theorem dispatch_per_entry_isolation_witness :
    ((dispatchEndpoint envDO oracleDown [] (fun _ => []) (some b5mixed)).status = 200 ∧
     (dispatchEndpoint envDO oracleDown [] (fun _ => []) (some b5mixed)).payload.map
        (fun p => p.results.length) = some 4) ∧
    (dispatchEndpoint envDO oracleDown [] (fun _ => []) (some b5mixed)).payload.map
        (fun p => p.results.get? 0) = some (some (badTargetResult "req-0")) ∧
    (dispatchEndpoint envDO oracleDown [] (fun _ => []) (some b5mixed)).payload.map
        (fun p => p.results.get? 1) = some (some (badMethodResult "req-1" "DELETE")) ∧
    (dispatchEndpoint envDO oracleDown [] (fun _ => []) (some b5mixed)).payload.map
        (fun p => p.results.get? 2) = some (some (badBodyResult "req-2")) ∧
    (dispatchEndpoint envDO oracleDown [] (fun _ => []) (some b5mixed)).payload.map
        (fun p => p.results.get? 3) = some (some (fetchErrorResult "req-3" "network down")) ∧
    ((dispatchEndpoint envDO oracleDown [] (fun _ => []) (some b5parFail)).status = 200 ∧
     (dispatchEndpoint envDO oracleDown [] (fun _ => []) (some b5parFail)).payload.map
        (fun p => p.results.length) = some 2) :=
  ⟨dispatch_per_entry_isolation.1 envDO oracleDown [] (fun _ => []) b5mixed
     (by decide) (by decide),
   dispatch_per_entry_isolation.2.1 envDO oracleDown [] (fun _ => []) b5mixed 0
     (by decide) (by decide) (by decide) (by decide),
   dispatch_per_entry_isolation.2.2.1 envDO oracleDown [] (fun _ => []) b5mixed 1
     (by decide) (by decide) (by decide) (by decide) (by decide),
   dispatch_per_entry_isolation.2.2.2.1 envDO oracleDown [] (fun _ => []) b5mixed 2 "%%"
     (by decide) (by decide) (by decide) (by decide) (by decide) rfl (by decide) (by decide),
   dispatch_per_entry_isolation.2.2.2.2 envDO oracleDown [] (fun _ => []) b5mixed 3
     "network down" (by decide) (by decide) (by decide) (by decide) (by decide) trivial
     (fun _ _ => rfl),
   dispatch_per_entry_isolation.1 envDO oracleDown [] (fun _ => []) b5parFail
     (by decide) (by decide)⟩

/-! ## Claim C9: the method check uppercases before comparing -/

/-- The `/fetch` body's `bodyB64`, if present and nonempty, decodes. -/
def decodesOkF (fb : FetchBody) : Prop :=
  match fb.bodyB64 with
  | some s => s = "" ∨ (base64urlDecodeToUint8Array s).isSome = true
  | none => True

theorem execUnitFetch_calls (env : Env) (oracle : Oracle) (sid : String) (store : Store)
    (id : String) (origin : Option String) (rt : String) (call : OutboundCall) :
    (execUnitFetch env oracle sid store id origin rt call).2.2.1 = [call] := by
  rw [execUnitFetch]
  cases oracle call <;> rfl

theorem fetchPerform_calls (env : Env) (oracle : Oracle) (store : Store)
    (ao sid : String) (origin : Option String) (call : OutboundCall) :
    (fetchPerform env oracle store ao sid origin call).2.2 = [call] := by
  rw [fetchPerform]
  cases oracle call <;> rfl

/-- A `/fetch` body that passes target and method validation reduces to its
fetch stage. -/
theorem fetchHandler_reduce (env : Env) (oracle : Oracle) (store : Store) (fb : FetchBody)
    (htar : isHttpsAbsolute (fb.target.getD "") = true)
    (hm : upperStr (fb.method.getD "GET") ∈ allowedMethods)
    (hbody : decodesOkF fb) :
    ∃ bodyInit : Option (List Nat),
      fetchHandler env oracle store (some fb) =
        fetchPerform env oracle store
          (if env.connectorOrigin = "" then "*" else env.connectorOrigin)
          (fb.sid.getD "")
          (enrichHeadersForUpstream env store (fb.sid.getD "") (fb.target.getD "")
            (filterRequestHeaders (headersFromRecord (fb.headers.getD [])))).2
          { target := fb.target.getD "", method := upperStr (fb.method.getD "GET"),
            headers := (enrichHeadersForUpstream env store (fb.sid.getD "") (fb.target.getD "")
              (filterRequestHeaders (headersFromRecord (fb.headers.getD [])))).1,
            body := bodyInit } := by
  rw [fetchHandler, if_neg (by simp [htar]), if_neg (by simp [hm])]
  rcases hb : fb.bodyB64 with _ | s
  · exact ⟨_, rfl⟩
  · rw [decodesOkF, hb] at hbody
    have hbody2 : s = "" ∨ (base64urlDecodeToUint8Array s).isSome = true := hbody
    by_cases hs : s = ""
    · subst hs
      exact ⟨_, rfl⟩
    · rcases hbytes : base64urlDecodeToUint8Array s with _ | bytes
      · rcases hbody2 with h | h
        · exact absurd h hs
        · rw [hbytes] at h
          simp at h
      · simp only [if_neg hs, hbytes]
        exact ⟨_, rfl⟩

/-- C9: the method checks of `/fetch` and of each `/dispatch` entry compare
the JS-uppercased method (`toUpperCase`, the Unicode default case
conversion — so also `"poſt"` uppercases into `POST`; see `upperStr`).
(1) A `/dispatch` entry whose method uppercases into {GET, HEAD, POST}
makes exactly one upstream call, with the uppercased method; (2) an entry
whose uppercased method is outside the set is rejected 405 "Method Not
Allowed" with no upstream call; (3) and (4): the same two facts for
`/fetch`. -/
theorem method_check_case_insensitive :
    (∀ (env : Env) (oracle : Oracle) (sid : String) (store : Store) (idx : Nat)
        (u : DispatchUnit) (s : String),
      u.method = some s → s ≠ "" →
      isHttpsAbsolute (u.target.getD "") = true →
      decodesOk u →
      upperStr s ∈ allowedMethods →
      ((execUnit env oracle sid store idx u).2.2.1).map (fun c => c.method) = [upperStr s]) ∧
    (∀ (env : Env) (oracle : Oracle) (sid : String) (store : Store) (idx : Nat)
        (u : DispatchUnit),
      isHttpsAbsolute (u.target.getD "") = true →
      upperStr (strOr u.method "GET") ∉ allowedMethods →
      (execUnit env oracle sid store idx u).1.status = 405 ∧
      (execUnit env oracle sid store idx u).1.statusText = "Method Not Allowed" ∧
      (execUnit env oracle sid store idx u).2.2.1 = []) ∧
    (∀ (env : Env) (oracle : Oracle) (store : Store) (fb : FetchBody) (s : String),
      fb.method = some s →
      isHttpsAbsolute (fb.target.getD "") = true →
      decodesOkF fb →
      upperStr s ∈ allowedMethods →
      ((fetchHandler env oracle store (some fb)).2.2).map (fun c => c.method) = [upperStr s]) ∧
    (∀ (env : Env) (oracle : Oracle) (store : Store) (fb : FetchBody),
      isHttpsAbsolute (fb.target.getD "") = true →
      upperStr (fb.method.getD "GET") ∉ allowedMethods →
      (fetchEndpoint env oracle store (some fb)).1.status = 405 ∧
      (fetchEndpoint env oracle store (some fb)).2.2 = []) := by
  refine ⟨?_, ?_, ?_, ?_⟩
  · intro env oracle sid store idx u s hms hs htar hbody hm
    have hstr : strOr u.method "GET" = s := by rw [hms, strOr, if_neg hs]
    obtain ⟨bi, heq⟩ := execUnit_reduce env oracle sid store idx u htar (hstr ▸ hm) hbody
    rw [heq, execUnitFetch_calls, hstr]
    rfl
  · intro env oracle sid store idx u htar hmn
    rw [execUnit, if_neg (by simp [htar]), if_pos hmn]
    exact ⟨rfl, rfl, rfl⟩
  · intro env oracle store fb s hms htar hbody hm
    have hstr : fb.method.getD "GET" = s := by rw [hms]; rfl
    obtain ⟨bi, heq⟩ := fetchHandler_reduce env oracle store fb htar (hstr ▸ hm) hbody
    rw [heq, fetchPerform_calls, hstr]
    rfl
  · intro env oracle store fb htar hmn
    have hh : fetchHandler env oracle store (some fb) =
        (.ok (errResp 405 "Method not allowed"
          (if env.connectorOrigin = "" then "*" else env.connectorOrigin)), store, []) := by
      rw [fetchHandler, if_neg (by simp [htar]), if_pos hmn]
    rw [fetchEndpoint, hh]
    exact ⟨rfl, rfl⟩

/-- Witness for C9: `"get"` is accepted by a `/dispatch` entry (sent
uppercased as `GET`); `"poſt"` — whose JS uppercase form is `POST` through
the Unicode mapping of long s — is likewise accepted and sent as `POST`;
and `"PATCH"` makes `/fetch` answer 405 with no upstream call. -/
theorem method_check_case_insensitive_witness :
    (upperStr "get" ∈ allowedMethods) ∧
    ((execUnit envDO c4Oracle "s1" [] 0
        { target := some "https://site.example/two", method := some "get" }).2.2.1).map
          (fun c => c.method) = [upperStr "get"] ∧
    (upperStr "poſt" = "POST" ∧ upperStr "poſt" ∈ allowedMethods) ∧
    ((execUnit envDO c4Oracle "s1" [] 0
        { target := some "https://site.example/two", method := some "poſt" }).2.2.1).map
          (fun c => c.method) = [upperStr "poſt"] ∧
    (upperStr ((some "PATCH" : Option String).getD "GET") ∉ allowedMethods) ∧
    ((fetchEndpoint envDO oracleDown []
        (some { target := some "https://example.com/x", method := some "PATCH" })).1.status = 405 ∧
     (fetchEndpoint envDO oracleDown []
        (some { target := some "https://example.com/x", method := some "PATCH" })).2.2 = []) :=
  ⟨by decide,
   method_check_case_insensitive.1 envDO c4Oracle "s1" [] 0
     { target := some "https://site.example/two", method := some "get" } "get"
     rfl (by decide) (by decide) trivial (by decide),
   ⟨by decide, by decide⟩,
   method_check_case_insensitive.1 envDO c4Oracle "s1" [] 0
     { target := some "https://site.example/two", method := some "poſt" } "poſt"
     rfl (by decide) (by decide) trivial (by decide),
   by decide,
   method_check_case_insensitive.2.2.2 envDO oracleDown []
     { target := some "https://example.com/x", method := some "PATCH" }
     (by decide) (by decide)⟩

/-! ## Claim C8: url-safe base64 round-trip -/

/-- C8: for every byte sequence, `base64urlDecode` is a left inverse of
`encodeUrlSafeBase64` (which emits no padding characters; the decoder
re-pads before the `atob` decode). -/
theorem base64url_roundtrip (b : List Nat) (hb : b.all (fun x => x < 256) = true) :
    base64urlDecode (encodeUrlSafeBase64 b) = some b ∧
    (encodeUrlSafeBase64 b).data.all (fun c => c ≠ '=') = true := by
  have hb2 : ∀ x ∈ b, x < 256 := by simpa using hb
  refine ⟨base64urlDecode_encode b hb2, ?_⟩
  rw [List.all_eq_true]
  intro c hc
  simpa using encodeUrlSafeBase64_no_pad b hb2 c hc

/-- Witness for C8 on a concrete byte sequence whose length is not a
multiple of 3 (so the decoder's re-padding path is exercised). -/
theorem base64url_roundtrip_witness :
    ([0, 255, 77, 1].all (fun x => x < 256) = true) ∧
    (base64urlDecode (encodeUrlSafeBase64 [0, 255, 77, 1]) = some [0, 255, 77, 1] ∧
     (encodeUrlSafeBase64 [0, 255, 77, 1]).data.all (fun c => c ≠ '=') = true) :=
  ⟨by decide, base64url_roundtrip [0, 255, 77, 1] (by decide)⟩

/-- Witness for C10 with `pipeline: "Parallel"` (wrong case): the response
reports `"sequential"`. -/
theorem dispatch_pipeline_defaults_sequential_witness :
    (({ sid := some "s1", pipeline := some "Parallel", requests := some [c4u2] } : DispatchBody).pipeline ≠ some "parallel") ∧
    ((dispatchEndpoint envDO c4Oracle [] (fun _ => [])
        (some { sid := some "s1", pipeline := some "Parallel", requests := some [c4u2] })).payload.map
          (fun p => p.pipeline) = some "sequential") :=
  ⟨by decide, by
    rw [dispatch_pipeline_defaults_sequential envDO c4Oracle [] (fun _ => [])
      { sid := some "s1", pipeline := some "Parallel", requests := some [c4u2] }
      (by decide) (by decide) (by decide)]
    decide⟩

end Router
